import Mathlib

/-!
Verification development for the `aws-sam-tools` repository.

The repository implements CloudFormation YAML tag support
(`src/aws_sam_tools/cfn_tags.py`) and two document-processing tags
(`src/cfn_tools/cfn_processing.py`).  This file gives a shallow embedding of
the Python data model and of the functions the specification talks about,
together with theorems settling the specification's claims.

Conventions of the embedding:
* Python values reachable in this code base (str, int, bool, None, list,
  dict with string keys, and `CloudFormationObject` tag instances) are
  modelled by `PyVal`.
* YAML parse/represent nodes are modelled by `YNode`; the external PyYAML
  parser, scalar resolver and block-style emitter are modelled on the
  document fragment exercised by the specification (doc comments on those
  definitions say exactly what is modelled).
* Functions that recurse through lists take an explicit `fuel : Nat` so that
  they are structurally recursive and evaluate inside `decide`/`rfl`.
* Python exceptions are modelled by `Except String` (the string being the
  essential part of the message), `Option` marks the boundary of the
  modelled fragment of external collaborators.
-/

/-- Model of the Python values this code base manipulates: strings, ints,
booleans, `None`, lists, string-keyed dicts (YAML mappings in this project
always use string keys) and CloudFormation tag objects, which carry the
semantic name (e.g. `Fn::GetAtt`), the tag literal (e.g. `!GetAtt`) and the
payload (`self.data` / `self.value` in the Python sources). -/
inductive PyVal where
  | pstr (s : String)
  | pint (n : Int)
  | pbool (b : Bool)
  | pnone
  | plist (xs : List PyVal)
  | pdict (xs : List (String × PyVal))
  | cfn (name tag : String) (data : PyVal)
  deriving Repr

mutual

/-- Structural equality test for `PyVal` (deep equality, as Python `==`
on these values). -/
def PyVal.eqv : PyVal → PyVal → Bool
  | .pstr s, .pstr t => s == t
  | .pint m, .pint n => m == n
  | .pbool x, .pbool y => x == y
  | .pnone, .pnone => true
  | .plist xs, .plist ys => PyVal.eqvList xs ys
  | .pdict xs, .pdict ys => PyVal.eqvPairs xs ys
  | .cfn n1 t1 d1, .cfn n2 t2 d2 => n1 == n2 && t1 == t2 && PyVal.eqv d1 d2
  | _, _ => false

/-- Pointwise equality of `PyVal` lists. -/
def PyVal.eqvList : List PyVal → List PyVal → Bool
  | [], [] => true
  | x :: xs, y :: ys => PyVal.eqv x y && PyVal.eqvList xs ys
  | _, _ => false

/-- Pointwise equality of `PyVal` association lists. -/
def PyVal.eqvPairs : List (String × PyVal) → List (String × PyVal) → Bool
  | [], [] => true
  | (k, v) :: xs, (k', v') :: ys => k == k' && PyVal.eqv v v' && PyVal.eqvPairs xs ys
  | _, _ => false

end

mutual

theorem PyVal.eqv_iff : ∀ a b : PyVal, PyVal.eqv a b = true ↔ a = b
  | .pstr _, b => by cases b <;> simp [PyVal.eqv]
  | .pint _, b => by cases b <;> simp [PyVal.eqv]
  | .pbool _, b => by cases b <;> simp [PyVal.eqv]
  | .pnone, b => by cases b <;> simp [PyVal.eqv]
  | .plist xs, b => by
    cases b <;> simp [PyVal.eqv]
    exact PyVal.eqvList_iff xs _
  | .pdict xs, b => by
    cases b <;> simp [PyVal.eqv]
    exact PyVal.eqvPairs_iff xs _
  | .cfn _ _ d, b => by
    cases b <;> simp [PyVal.eqv, PyVal.eqv_iff d]
    tauto

theorem PyVal.eqvList_iff : ∀ xs ys : List PyVal, PyVal.eqvList xs ys = true ↔ xs = ys
  | [], [] => by simp [PyVal.eqvList]
  | [], _ :: _ => by simp [PyVal.eqvList]
  | _ :: _, [] => by simp [PyVal.eqvList]
  | x :: xs, y :: ys => by
    simp [PyVal.eqvList, PyVal.eqv_iff x y, PyVal.eqvList_iff xs ys]

theorem PyVal.eqvPairs_iff :
    ∀ xs ys : List (String × PyVal), PyVal.eqvPairs xs ys = true ↔ xs = ys
  | [], [] => by simp [PyVal.eqvPairs]
  | [], _ :: _ => by simp [PyVal.eqvPairs]
  | _ :: _, [] => by simp [PyVal.eqvPairs]
  | (k, v) :: xs, (k', v') :: ys => by
    simp only [PyVal.eqvPairs, Bool.and_eq_true, beq_iff_eq, PyVal.eqv_iff v v',
      PyVal.eqvPairs_iff xs ys, List.cons.injEq, Prod.mk.injEq]
    try tauto

end

instance : DecidableEq PyVal := fun a b =>
  decidable_of_iff (PyVal.eqv a b = true) (PyVal.eqv_iff a b)

instance {ε α : Type} [DecidableEq ε] [DecidableEq α] : DecidableEq (Except ε α) :=
  fun a b =>
    match a, b with
    | .ok x, .ok y =>
      if h : x = y then isTrue (by rw [h]) else isFalse (fun hh => h (Except.ok.inj hh))
    | .error e, .error f =>
      if h : e = f then isTrue (by rw [h]) else isFalse (fun hh => h (Except.error.inj hh))
    | .ok _, .error _ => isFalse (fun hh => Except.noConfusion hh)
    | .error _, .ok _ => isFalse (fun hh => Except.noConfusion hh)

/-! ### Character-list utilities

The embedding works on `List Char` for all text processing (parsing,
splitting, emitting), converting to `String` only at the boundaries, so
that everything reduces inside the kernel. -/

/-- Split a character list at the first occurrence of `c`; `none` when `c`
does not occur.  The separator is dropped. -/
def splitAtChar (c : Char) : List Char → Option (List Char × List Char)
  | [] => none
  | x :: xs =>
    if x = c then some ([], xs)
    else (splitAtChar c xs).map (fun p => (x :: p.1, p.2))

/-- Split a character list at every occurrence of `c` (Python
`str.split(sep)` semantics for a one-character separator: always returns
at least one piece, empty pieces are kept). -/
def splitAllChar (c : Char) : List Char → List (List Char)
  | [] => [[]]
  | x :: xs =>
    if x = c then [] :: splitAllChar c xs
    else
      match splitAllChar c xs with
      | l :: ls => (x :: l) :: ls
      | [] => [[x]]

/-- Lines of a text, in the sense of splitting at every newline character. -/
def splitLines (cs : List Char) : List (List Char) := splitAllChar '\n' cs

/-- Join lines with newline separators (inverse of `splitLines` for
newline-free lines). -/
def joinLines : List (List Char) → List Char
  | [] => []
  | [l] => l
  | l :: ls => l ++ '\n' :: joinLines ls

/-- Python `value.split(sep)` for a single-character separator, on strings. -/
def pySplitChar (c : Char) (s : String) : List String :=
  (splitAllChar c s.data).map String.mk

/-- Insert into a Python dict modelled as an insertion-ordered association
list: an existing key keeps its position and gets the new value, a new key
is appended (CPython dict semantics). -/
def dictInsert (m : List (String × PyVal)) (k : String) (v : PyVal) :
    List (String × PyVal) :=
  if m.any (fun kv => kv.1 = k) then
    m.map (fun kv => if kv.1 = k then (k, v) else kv)
  else m ++ [(k, v)]

/-- First-match lookup in an insertion-ordered dict model (`key in d` /
`d[key]` for dicts built with `dictInsert`, whose keys are unique). -/
def dictLookup (m : List (String × PyVal)) (k : String) : Option PyVal :=
  (m.find? (fun kv => kv.1 = k)).map (fun kv => kv.2)

/-! ### The tag registry of `aws_sam_tools/cfn_tags.py` -/

/-- The five shape kinds of `CloudFormationObject` (`SCALAR`, `SEQUENCE`,
`SEQUENCE_OR_SCALAR`, `MAPPING`, `MAPPING_OR_SCALAR`). -/
inductive TagShape where
  | scalarK
  | sequenceK
  | sequenceOrScalarK
  | mappingK
  | mappingOrScalarK
  deriving DecidableEq, Repr

/-- One `(name, tag, type)` triple of `cfn_tags.py`. -/
structure TagDef where
  name : String
  tag : String
  type : TagShape
  deriving DecidableEq, Repr

/-- `ref = ("Ref", "Ref", SCALAR)`. -/
def refDef : TagDef := ⟨"Ref", "Ref", .scalarK⟩

/-- `condition = ("Condition", "Condition", SCALAR)`. -/
def conditionDef : TagDef := ⟨"Condition", "Condition", .scalarK⟩

/-- The `functions` table of `cfn_tags.py`, in source order. -/
def functions : List TagDef :=
  [ ⟨"Fn::And", "And", .sequenceK⟩,
    ⟨"Fn::Base64", "Base64", .scalarK⟩,
    ⟨"Fn::Cidr", "Cidr", .sequenceK⟩,
    ⟨"Fn::Equals", "Equals", .sequenceK⟩,
    ⟨"Fn::FindInMap", "FindInMap", .sequenceK⟩,
    ⟨"Fn::GetAtt", "GetAtt", .sequenceOrScalarK⟩,
    ⟨"Fn::GetAZs", "GetAZs", .scalarK⟩,
    ⟨"Fn::If", "If", .sequenceK⟩,
    ⟨"Fn::ImportValue", "ImportValue", .scalarK⟩,
    ⟨"Fn::Join", "Join", .sequenceK⟩,
    ⟨"Fn::Not", "Not", .sequenceK⟩,
    ⟨"Fn::Or", "Or", .sequenceK⟩,
    ⟨"Fn::Select", "Select", .sequenceK⟩,
    ⟨"Fn::Split", "Split", .sequenceK⟩,
    ⟨"Fn::Sub", "Sub", .sequenceOrScalarK⟩,
    ⟨"Fn::Transform", "Transform", .mappingK⟩ ]

/-- All registered descriptors, in the order `inject` iterates them
(`itertools.chain(functions, [ref, condition])`). -/
def registeredTags : List TagDef := functions ++ [refDef, conditionDef]

/-- The tag literal registered for a descriptor: `inject` prepends `"!"`
when the stored tag does not already start with it. -/
def tagLiteral (td : TagDef) : String :=
  if td.tag.data.head? = some '!' then td.tag else "!" ++ td.tag

/-- Trailing run of word characters (`re.search(r"\w+$", tag)` in
`inject`, used to derive the generated class name). -/
def wordSuffix (s : String) : String :=
  String.mk ((s.data.reverse.takeWhile
    (fun c => c.isAlphanum || c = '_')).reverse)

/-- Dict-backed constructor registration of `inject`: for each descriptor
(in table order) the tag literal is derived, the generated class name is
taken as the trailing word of the literal (an `AttributeError` — modelled
as the error case — would be raised if the regex found nothing), and the
loader's constructor dict is updated with `add_constructor`, which is a
plain dict assignment and therefore silently overwrites an existing entry.
There is no duplicate check anywhere in `inject`. -/
def injectConstructors (entries : List TagDef) :
    Except String (List (String × TagDef)) :=
  entries.foldlM
    (fun m td =>
      let tg := tagLiteral td
      if wordSuffix tg = "" then .error "AttributeError"
      else .ok (dictInsert' m tg td))
    []
where
  /-- Dict assignment `loader.yaml_constructors[tag] = constructor`. -/
  dictInsert' (m : List (String × TagDef)) (k : String) (v : TagDef) :
      List (String × TagDef) :=
    if m.any (fun kv => kv.1 = k) then
      m.map (fun kv => if kv.1 = k then (k, v) else kv)
    else m ++ [(k, v)]

/-- Registry lookup by tag literal (the combined effect of the
per-tag `add_constructor` calls made by `inject`). -/
def findTag (t : String) : Option TagDef :=
  registeredTags.find? (fun td => tagLiteral td = t)

/-! ### YAML node model and the PyYAML scalar resolver -/

/-- YAML parse/represent nodes: scalars carry their tag, text and requested
style (`none` = let the emitter choose, `some ""` = force plain,
`some "'"` = single-quoted); sequences and mappings carry their tag and
children.  Block flow style is implied throughout (the dumpers in this
project always pass `default_flow_style=False`). -/
inductive YNode where
  | yscalar (tag : String) (value : String) (style : Option String)
  | yseq (tag : String) (items : List YNode)
  | ymap (tag : String) (pairs : List (YNode × YNode))
  deriving Repr

/-- `tag:yaml.org,2002:str`. -/
def strTag : String := "tag:yaml.org,2002:str"

/-- `tag:yaml.org,2002:int`. -/
def intTag : String := "tag:yaml.org,2002:int"

/-- `tag:yaml.org,2002:bool`. -/
def boolTag : String := "tag:yaml.org,2002:bool"

/-- `tag:yaml.org,2002:null`. -/
def nullTag : String := "tag:yaml.org,2002:null"

/-- `tag:yaml.org,2002:seq`. -/
def seqTag : String := "tag:yaml.org,2002:seq"

/-- `tag:yaml.org,2002:map`. -/
def mapTag : String := "tag:yaml.org,2002:map"

/-- Marker tag for plain scalars whose implicit resolution falls outside
the modelled fragment (floats, timestamps, punctuation-led scalars, ...). -/
def otherTag : String := "tag:yaml.org,2002:unmodelled"

/-- The YAML 1.1 boolean words of PyYAML's implicit resolver. -/
def boolWords : List String :=
  ["yes", "Yes", "YES", "no", "No", "NO", "true", "True", "TRUE",
   "false", "False", "FALSE", "on", "On", "ON", "off", "Off", "OFF"]

/-- The boolean words PyYAML's constructor maps to Python `True`. -/
def trueWords : List String :=
  ["yes", "Yes", "YES", "true", "True", "TRUE", "on", "On", "ON"]

/-- The null words of PyYAML's implicit resolver. -/
def nullWords : List String := ["~", "null", "Null", "NULL"]

/-- First character is an ASCII letter. -/
def headAlpha (s : String) : Bool :=
  match s.data with
  | c :: _ => c.isAlpha
  | [] => false

/-- Canonical decimal integer text: optional minus sign followed by a
nonempty digit run (the part of PyYAML's int pattern this fragment uses). -/
def intCanon (s : String) : Bool :=
  match s.data with
  | '-' :: rest => rest ≠ [] && rest.all Char.isDigit
  | cs => cs ≠ [] && cs.all Char.isDigit

/-- Models PyYAML's implicit scalar resolver on the fragment used by this
development.  Boolean and null words and canonical decimal integers resolve
to their tags; any other scalar starting with an ASCII letter resolves to
`str` (this is exactly PyYAML's behaviour for such scalars: every
non-string pattern of its resolver — int, float, timestamp, merge, value —
starts with a digit, sign, dot or punctuation); everything else is outside
the modelled fragment and gets the marker tag `otherTag`. -/
def resolveScalar (s : String) : String :=
  if boolWords.contains s then boolTag
  else if s = "" || nullWords.contains s then nullTag
  else if intCanon s then intTag
  else if headAlpha s then strTag
  else otherTag

/-- Characters that keep a block-style plain scalar safe in the modelled
emitter fragment: ASCII alphanumerics and `_ - . : $ \x7b \x7d / ,`.
Spaces are excluded from the fragment (PyYAML allows them but folds long
lines at spaces, which is not modelled). -/
def plainBodyChar (c : Char) : Bool :=
  c.isAlphanum || c = '_' || c = '-' || c = '.' || c = ':' || c = '$' ||
    c = '{' || c = '}' || c = '/' || c = ','

/-- A scalar text the modelled PyYAML emitter may write in plain style:
nonempty, starts with an alphanumeric, all characters from the safe set,
and no trailing `:` (a `:` followed by end of scalar blocks plain style in
PyYAML's scalar analysis). -/
def plainValueOk (s : String) : Bool :=
  match s.data with
  | [] => false
  | c :: _ =>
    c.isAlphanum && s.data.all plainBodyChar && s.data.getLast? ≠ some ':'

/-- A scalar text that can be written single-quoted without folding or
escape processing in the modelled fragment: no newline, no quote, no space. -/
def squotable (s : String) : Bool :=
  s.data.all (fun c => c ≠ '\n' && c ≠ '\'' && c ≠ ' ')

/-! ### The representer's plain-style pattern

`CloudFormationObject.represent` forces plain style when the scalar payload
matches `^[a-zA-Z][a-zA-Z0-9_\-]*(::[a-zA-Z][a-zA-Z0-9]*)*$` under Python
`re.match` semantics (`$` also matches just before one trailing newline).
The character classes contain no `:`, so the regex is matched
deterministically, which the following recursive matcher implements. -/

mutual

/-- Matcher state after the leading letter of the first segment:
consume `[a-zA-Z0-9_-]*`, then either end (optionally with one trailing
newline, Python `$`) or `::` and a further segment. -/
def cfnTail1 : List Char → Bool
  | [] => true
  | ['\n'] => true
  | ':' :: ':' :: rest => cfnSegN rest
  | c :: rest => (c.isAlphanum || c = '_' || c = '-') && cfnTail1 rest

/-- A segment after `::`: `[a-zA-Z][a-zA-Z0-9]*`. -/
def cfnSegN : List Char → Bool
  | c :: rest => c.isAlpha && cfnTailN rest
  | [] => false

/-- Tail of a segment after `::`. -/
def cfnTailN : List Char → Bool
  | [] => true
  | ['\n'] => true
  | ':' :: ':' :: rest => cfnSegN rest
  | c :: rest => c.isAlphanum && cfnTailN rest

end

/-- The identifier-like pattern of `CloudFormationObject.represent`
(see `cfnTail1`). -/
def cfnPattern (s : String) : Bool :=
  match s.data with
  | c :: rest => c.isAlpha && cfnTail1 rest
  | [] => false

/-! ### `CloudFormationObject.construct` and the base constructors -/

/-- `loader.construct_scalar(node)`: returns the scalar text, raises a
`ConstructorError` ("expected a scalar node") on a collection node. -/
def constructScalar : YNode → Except String String
  | .yscalar _ v _ => .ok v
  | _ => .error "expected a scalar node"

/-- Value of a canonical decimal digit run. -/
def natOfDigits (cs : List Char) : Nat :=
  cs.foldl (fun a c => a * 10 + (c.toNat - 48)) 0

/-- `SafeConstructor.construct_yaml_int`, modelled on canonical decimal
integer texts (the only int scalars this fragment produces). -/
def parseYamlInt (s : String) : Int :=
  match s.data with
  | '-' :: rest => -(natOfDigits rest : Int)
  | cs => (natOfDigits cs : Int)

/-- `loader.construct_sequence(node)` parameterized by the recursive
object constructor: raises "expected a sequence node" on non-sequence
nodes, otherwise constructs every child. -/
def constructSequenceWith (recur : YNode → Except String PyVal) :
    YNode → Except String (List PyVal)
  | .yseq _ items => items.mapM recur
  | _ => .error "expected a sequence node"

/-- `loader.construct_mapping(node)` parameterized by the recursive object
constructor: raises "expected a mapping node" on non-mapping nodes,
otherwise constructs keys and values and builds the dict in insertion
order with overwrite-on-duplicate (CPython dict assignment); keys are
restricted to scalars constructing as strings (the only keys this
project's documents use). -/
def constructMappingWith (recur : YNode → Except String PyVal) :
    YNode → Except String (List (String × PyVal))
  | .ymap _ pairs => do
    let kvs ← pairs.mapM (fun (kv : YNode × YNode) => do
      let k ← recur kv.1
      match k with
      | .pstr ks => do
        let v ← recur kv.2
        .ok (ks, v)
      | _ => .error "non-string mapping key (outside modelled fragment)")
    .ok (kvs.foldl (fun acc kv => dictInsert acc kv.1 kv.2) [])
  | _ => .error "expected a mapping node"

/-- `CloudFormationObject.construct` for a registered tag: dispatch on the
descriptor's shape, with the `try construct_sequence / except
ConstructorError: construct_scalar` fallback of `SEQUENCE_OR_SCALAR` and
the analogous fallback of `MAPPING_OR_SCALAR` (a failure inside the
sequence/mapping attempt is a `ConstructorError` and is caught the same
way, so the scalar retry then reports its own shape error). -/
def cfnConstructDispatch (recur : YNode → Except String PyVal) (node : YNode)
    (tag : String) : Except String PyVal :=
  match findTag tag with
  | none => .error "could not determine a constructor"
  | some td =>
    let lit := tagLiteral td
    match td.type with
    | .scalarK => (constructScalar node).map (fun s => .cfn td.name lit (.pstr s))
    | .sequenceK =>
      (constructSequenceWith recur node).map (fun xs => .cfn td.name lit (.plist xs))
    | .sequenceOrScalarK =>
      match constructSequenceWith recur node with
      | .ok xs => .ok (.cfn td.name lit (.plist xs))
      | .error _ => (constructScalar node).map (fun s => .cfn td.name lit (.pstr s))
    | .mappingK =>
      (constructMappingWith recur node).map (fun xs => .cfn td.name lit (.pdict xs))
    | .mappingOrScalarK =>
      match constructMappingWith recur node with
      | .ok xs => .ok (.cfn td.name lit (.pdict xs))
      | .error _ => (constructScalar node).map (fun s => .cfn td.name lit (.pstr s))

/-- Node construction of the `CloudFormationLoader`: the base
`SafeConstructor` constructors for the core tags, and
`CloudFormationObject.construct` (via `cfnConstructDispatch`) for the
registered tags.  `fuel` bounds the recursion depth. -/
def constructObject (fuel : Nat) (node : YNode) : Except String PyVal :=
  match fuel with
  | 0 => .error "recursion depth exhausted"
  | fuel + 1 =>
    match node with
    | .yscalar tag v _ =>
      if tag = strTag then .ok (.pstr v)
      else if tag = intTag then .ok (.pint (parseYamlInt v))
      else if tag = boolTag then .ok (.pbool (trueWords.contains v))
      else if tag = nullTag then .ok .pnone
      else cfnConstructDispatch (constructObject fuel) node tag
    | .yseq tag items =>
      if tag = seqTag then (items.mapM (constructObject fuel)).map PyVal.plist
      else cfnConstructDispatch (constructObject fuel) node tag
    | .ymap tag _ =>
      if tag = mapTag then
        (constructMappingWith (constructObject fuel) node).map PyVal.pdict
      else cfnConstructDispatch (constructObject fuel) node tag

/-! ### `CloudFormationObject.to_json` -/

/-- Python `"." in data` for the value kinds `to_json` can meet: substring
test for strings, membership for lists, key membership for dicts, a
`TypeError` otherwise. -/
def pyDotIn : PyVal → Except String Bool
  | .pstr s => .ok (s.data.contains '.')
  | .plist xs => .ok (xs.contains (.pstr "."))
  | .pdict xs => .ok (xs.any (fun kv => kv.1 = "."))
  | _ => .error "TypeError: argument is not iterable"

/-- Python `data.split(".")`: defined for strings, an `AttributeError`
otherwise. -/
def pyStrSplitDot : PyVal → Except String PyVal
  | .pstr s => .ok (.plist ((pySplitChar '.' s).map PyVal.pstr))
  | _ => .error "AttributeError: no attribute split"

/-- `CloudFormationObject.to_json` (applied through the local `convert`
helper, which converts tag objects and passes every other value through
unchanged — note that `convert` is applied only to the *direct* children
of a dict or list payload, exactly as in the source).  After the children
step, a `Fn::GetAtt` whose payload is a string is split on `"."`, and
(`elif`) a `Ref` whose payload contains a `"."` is renamed to
`Fn::GetAtt` and split the same way.  The result is the one-key dict
`{name: data}`. -/
def toJsonConvert (fuel : Nat) (v : PyVal) : Except String PyVal :=
  match fuel with
  | 0 => .error "recursion depth exhausted"
  | fuel + 1 =>
    match v with
    | .cfn name _tag dat =>
      let dataE : Except String PyVal :=
        match dat with
        | .pdict xs =>
          (xs.mapM (fun kv => (toJsonConvert fuel kv.2).map (fun w => (kv.1, w)))).map
            PyVal.pdict
        | .plist xs => (xs.mapM (toJsonConvert fuel)).map PyVal.plist
        | d => .ok d
      do
        let data ← dataE
        if name = "Fn::GetAtt" then
          match data with
          | .pstr s => .ok (.pdict [(name, .plist ((pySplitChar '.' s).map PyVal.pstr))])
          | _ => .ok (.pdict [(name, data)])
        else if name = "Ref" then do
          let hasDot ← pyDotIn data
          if hasDot then do
            let parts ← pyStrSplitDot data
            .ok (.pdict [("Fn::GetAtt", parts)])
          else .ok (.pdict [(name, data)])
        else .ok (.pdict [(name, data)])
    | w => .ok w

/-! ### `CloudFormationObject.represent` and the base representers -/

/-- The representer: base `SafeRepresenter` behaviour for plain values
(strings, ints, booleans, `None`, lists, insertion-ordered dicts — the
dumpers pass `sort_keys=False`), and `CloudFormationObject.represent` for
tag objects: list payloads become tagged sequence nodes, dict payloads
tagged mapping nodes, and string payloads tagged scalar nodes with plain
style forced (`style=""`) exactly when the payload matches `cfnPattern`,
and the style left to the emitter (`style=None`) otherwise.  A non-string
scalar payload of a tag object is handed by the source to
`represent_scalar`, which requires a string — outside the model. -/
def representData (fuel : Nat) (v : PyVal) : Option YNode :=
  match fuel with
  | 0 => none
  | fuel + 1 =>
    match v with
    | .pstr s => some (.yscalar strTag s none)
    | .pint n => some (.yscalar intTag (toString n) none)
    | .pbool b => some (.yscalar boolTag (if b then "true" else "false") none)
    | .pnone => some (.yscalar nullTag "null" none)
    | .plist xs => (xs.mapM (representData fuel)).map (YNode.yseq seqTag)
    | .pdict xs =>
      (xs.mapM (fun kv => (representData fuel kv.2).map
        (fun w => (YNode.yscalar strTag kv.1 none, w)))).map (YNode.ymap mapTag)
    | .cfn _name tag dat =>
      match dat with
      | .plist xs => (xs.mapM (representData fuel)).map (YNode.yseq tag)
      | .pdict xs =>
        (xs.mapM (fun kv => (representData fuel kv.2).map
          (fun w => (YNode.yscalar strTag kv.1 none, w)))).map (YNode.ymap tag)
      | .pstr s =>
        if cfnPattern s then some (.yscalar tag s (some ""))
        else some (.yscalar tag s none)
      | _ => none

/-! ### The block-style emitter model

Models the PyYAML serializer/emitter with the settings this project's
dumpers always use (`default_flow_style=False`, `sort_keys=False`,
`allow_unicode=True`, indent 2, indentless block sequences) on the
fragment used here: block documents whose sequence items are scalars,
whose keys are plain implicit scalars, and whose scalar texts need no line
folding (no spaces — PyYAML folds long lines at spaces).  `none` marks the
boundary of the fragment. -/

/-- `prepare_tag`: local `!Name` tags are written as-is, core tags in
shorthand `!!name` form (the latter never reaches the output in this
fragment because core-tagged nodes are implicit). -/
def prepTag (t : String) : List Char :=
  if t.data.take 18 = "tag:yaml.org,2002:".data then '!' :: '!' :: t.data.drop 18
  else t.data

/-- Inline text of one scalar node in block context.  Mirrors
`Serializer.serialize_node` (implicit flags from the resolver) together
with `Emitter.process_tag` / `choose_scalar_style`.  A requested style of
`""` (the representer's "plain" request) is falsy in Python, so
`choose_scalar_style` treats it exactly like no request
(`if not self.event.style and self.event.implicit[0]`): plain is chosen
only for implicit nodes whose text passes the scalar analysis, and every
other scalar of this fragment is single-quoted, with the tag shown unless
the default resolution (`str`) matches the tag.  The requested style is
therefore ignored on this fragment (`"` and `|`/`>` requests never occur
here). -/
def emitScalarInline (tag value : String) (_style : Option String) : Option (List Char) :=
  let implicitPlain := resolveScalar value = tag
  if implicitPlain && plainValueOk value then
    some value.data
  else if squotable value then
    let quoted := '\'' :: value.data ++ ['\'']
    if tag = strTag then some quoted else some (prepTag tag ++ ' ' :: quoted)
  else none

/-- Spaces of a block indentation level. -/
def indentSp (n : Nat) : List Char := List.replicate n ' '

/-- A mapping key in simple-key context: must be an implicit plain scalar
in this fragment. -/
def emitKeyInline : YNode → Option (List Char)
  | .yscalar t v none => if resolveScalar v = t && plainValueOk v then some v.data else none
  | _ => none

/-- Text of a mapping value, starting right after the key's `:` and ending
with the final newline of the value's last line.  `ind` is the indentation
level of the owning key: nested mapping pairs indent by 2 more, block
sequence items stay at the owner's level (PyYAML's indentless sequences). -/
def emitValueText (fuel : Nat) (ind : Nat) (node : YNode) : Option (List Char) :=
  match fuel with
  | 0 => none
  | fuel + 1 =>
    match node with
    | .yscalar t v st => (emitScalarInline t v st).map (fun s => ' ' :: s ++ ['\n'])
    | .yseq t items =>
      if items.isEmpty then none
      else do
        let body ← items.mapM (fun (n : YNode) =>
          match n with
          | .yscalar t' v' st' =>
            (emitScalarInline t' v' st').map
              (fun s => indentSp ind ++ '-' :: ' ' :: s ++ ['\n'])
          | _ => none)
        some ((if t = seqTag then [] else ' ' :: prepTag t) ++ '\n' :: body.flatten)
    | .ymap t pairs =>
      if pairs.isEmpty then none
      else do
        let body ← pairs.mapM (fun (kv : YNode × YNode) => do
          let kt ← emitKeyInline kv.1
          let vt ← emitValueText fuel (ind + 2) kv.2
          some (indentSp (ind + 2) ++ kt ++ ':' :: vt))
        some ((if t = mapTag then [] else ' ' :: prepTag t) ++ '\n' :: body.flatten)

/-- Emit a whole document (root mapping or root sequence, as produced by
`yaml.dump` of a dict or list) in block style. -/
def emitDocRoot (fuel : Nat) (node : YNode) : Option (List Char) :=
  match node with
  | .ymap t pairs =>
    if t = mapTag && !pairs.isEmpty then
      (pairs.mapM (fun (kv : YNode × YNode) => do
        let kt ← emitKeyInline kv.1
        let vt ← emitValueText fuel 0 kv.2
        some (kt ++ ':' :: vt))).map List.flatten
    else none
  | .yseq t items =>
    if t = seqTag && !items.isEmpty then
      (items.mapM (fun (n : YNode) =>
        match n with
        | .yscalar t' v' st' =>
          (emitScalarInline t' v' st').map (fun s => '-' :: ' ' :: s ++ ['\n'])
        | _ => none)).map List.flatten
    else none
  | _ => none

/-- `dump_yaml(data)` of `cfn_tags.py` with its default options
(`default_flow_style=False`, `sort_keys=False`, `allow_unicode=True`):
represent the tree with the `CloudFormationDumper` representers, then emit
it in block style. -/
def dumpYaml (fuel : Nat) (data : PyVal) : Option String :=
  (representData fuel data).bind (fun nd => (emitDocRoot fuel nd).map String.mk)

/-! ### The parser model for the canonical document fragment

Models the external YAML parser on single-pair root mappings
`Key: <payload>` where the payload is an inline scalar (plain,
single-quoted, or `!Tag` followed by a scalar) or a `!Tag` whose block
payload is a sequence of inline-scalar items (`- item` lines) or a
two-space-indented mapping of inline scalars (`  key: value` lines).
Documents outside this fragment parse to `none`. -/

/-- Strip a closing single quote: the input is the text after an opening
`'`; succeeds when the last character is the closing quote and no quote
occurs inside (quote escaping is outside the fragment). -/
def unquoteSingle : List Char → Option (List Char)
  | [] => none
  | ['\''] => some []
  | c :: rest => if c = '\'' then none else (unquoteSingle rest).map (c :: ·)

/-- Parse the value of a tagged inline payload (the text after the first
space following the tag): possibly single-quoted, otherwise plain text. -/
def parseTagValue (tg v : List Char) : Option YNode :=
  match v with
  | [] => none
  | c2 :: v2 =>
    if c2 = '\'' then
      (unquoteSingle v2).map
        (fun inner => .yscalar (String.mk ('!' :: tg)) (String.mk inner) (some "'"))
    else some (.yscalar (String.mk ('!' :: tg)) (String.mk (c2 :: v2)) none)

/-- Parse a tagged inline payload `Tag value` (the text after the `!`). -/
def parseTaggedInline (rest : List Char) : Option YNode :=
  (splitAtChar ' ' rest).bind (fun p => parseTagValue p.1 p.2)

/-- Parse an inline scalar payload: `!Tag value` (value possibly quoted),
a single-quoted scalar (resolved as `str`), or a plain scalar resolved by
`resolveScalar`. -/
def parseInlineNode (cs : List Char) : Option YNode :=
  match cs with
  | [] => none
  | c :: rest =>
    if c = '!' then parseTaggedInline rest
    else if c = '\'' then
      (unquoteSingle rest).map
        (fun inner => .yscalar strTag (String.mk inner) (some "'"))
    else some (.yscalar (resolveScalar (String.mk (c :: rest))) (String.mk (c :: rest)) none)

/-- Drop a final empty line (the effect of a trailing newline after
`splitLines`); fails when the last line is nonempty. -/
def initIfLastEmpty : List (List Char) → Option (List (List Char))
  | [] => none
  | [l] => if l = [] then some [] else none
  | l :: rest => (initIfLastEmpty rest).map (l :: ·)

/-- Parse one block sequence item line `- item`. -/
def parseItemLine (l : List Char) : Option YNode :=
  match l with
  | '-' :: ' ' :: rest => parseInlineNode rest
  | _ => none

/-- Parse the `key: value` part of a block mapping line, after the
two-space indent and split at the first colon. -/
def parseMapValue (k r : List Char) : Option (YNode × YNode) :=
  match r with
  | ' ' :: v =>
    (parseInlineNode v).bind (fun n =>
      some (YNode.yscalar (resolveScalar (String.mk k)) (String.mk k) none, n))
  | _ => none

/-- Parse one block mapping line `  key: value` (two-space indent). -/
def parseMapLine (l : List Char) : Option (YNode × YNode) :=
  match l with
  | ' ' :: ' ' :: rest => (splitAtChar ':' rest).bind (fun p => parseMapValue p.1 p.2)
  | _ => none

/-- Classify and parse the block payload lines of a tagged value: item
lines (first line starts with `-`) or mapping lines. -/
def parseBodyLines (ls : List (List Char)) :
    Option (Sum (List YNode) (List (YNode × YNode))) :=
  match ls with
  | [] => none
  | l :: _ =>
    if l.head? = some '-' then (ls.mapM parseItemLine).map Sum.inl
    else (ls.mapM parseMapLine).map Sum.inr

/-- Parse a tagged block payload: the tag text must have no inline part,
and the body lines form the sequence or mapping payload. -/
def parseBlockPayload (k tagCs : List Char) (body : List (List Char)) : Option YNode :=
  if tagCs.any (fun c => c = ' ') then none
  else
    (parseBodyLines body).bind (fun b =>
      some (.ymap mapTag
        [(.yscalar (resolveScalar (String.mk k)) (String.mk k) none,
          match b with
          | .inl items => .yseq (String.mk ('!' :: tagCs)) items
          | .inr pairs => .ymap (String.mk ('!' :: tagCs)) pairs)]))

/-- Parse the payload of the root pair: an empty body means an inline
payload, a nonempty body a tagged block payload. -/
def parseDocBody (k pay : List Char) (body : List (List Char)) : Option YNode :=
  match body with
  | [] =>
    (parseInlineNode pay).bind (fun v =>
      some (.ymap mapTag
        [(.yscalar (resolveScalar (String.mk k)) (String.mk k) none, v)]))
  | _ :: _ =>
    match pay with
    | '!' :: tagCs => parseBlockPayload k tagCs body
    | _ => none

/-- After the colon of the root pair a single space must follow. -/
def parseAfterKey (k r : List Char) (body : List (List Char)) : Option YNode :=
  match r with
  | ' ' :: pay => parseDocBody k pay body
  | _ => none

/-- Parse the lines of a document of the modelled fragment into a node
tree (see the section comment for the grammar): the last line must be
empty (trailing newline), the first line is split at its first colon. -/
def parseDocLines (ls : List (List Char)) : Option YNode :=
  match ls with
  | [] => none
  | l :: rest =>
    (initIfLastEmpty rest).bind (fun body =>
      (splitAtChar ':' l).bind (fun p => parseAfterKey p.1 p.2 body))

/-- `load_yaml(stream)` of `cfn_tags.py`: parse with the
`CloudFormationLoader` (modelled parser on the canonical fragment,
`.error` outside it) and construct the value tree. -/
def loadYaml (fuel : Nat) (stream : String) : Except String PyVal :=
  match parseDocLines (splitLines stream.data) with
  | none => .error "parse error (outside modelled fragment)"
  | some nd => constructObject fuel nd

/-! ### Path model for `cfn_processing.py`

Models `os.path` on POSIX paths: `isabs`, `join`, `dirname`,
`abspath` (which is `normpath(join(getcwd(), p))`), and `pathlib`'s
`suffix`.  `pnormAbs` is the lexical normalisation the operating system
applies when a path is opened (so two texts designate the same file iff
they normalise, relative to the working directory, to the same string). -/

/-- `os.path.isabs`. -/
def pisabs (p : String) : Bool := p.data.head? = some '/'

/-- `os.path.join(a, b)` for two components. -/
def pjoin (a b : String) : String :=
  if pisabs b then b
  else if a = "" then b
  else if a.data.getLast? = some '/' then a ++ b
  else a ++ "/" ++ b

/-- `os.path.dirname`. -/
def pdirname (p : String) : String :=
  match splitAtChar '/' p.data.reverse with
  | none => ""
  | some (_, restRev) =>
    match restRev.reverse with
    | [] => "/"
    | cs => String.mk cs

/-- Base name (text after the last `/`). -/
def pbasename (p : String) : List Char :=
  match splitAtChar '/' p.data.reverse with
  | none => p.data
  | some (baseRev, _) => baseRev.reverse

/-- `pathlib.Path(p).suffix`: the last dot-suffix of the base name,
empty for dotfiles and names without a dot. -/
def psuffix (p : String) : String :=
  let base := pbasename p
  match splitAtChar '.' base.reverse with
  | none => ""
  | some (extRev, restRev) =>
    if restRev = [] then "" else String.mk ('.' :: extRev.reverse)

/-- Lexical path normalisation: resolve `.`, `..` and empty segments of an
absolute path. -/
def normSegsAcc : List (List Char) → List (List Char) → List (List Char)
  | [], acc => acc.reverse
  | s :: rest, acc =>
    if s = [] then normSegsAcc rest acc
    else if s = ['.'] then normSegsAcc rest acc
    else if s = ['.', '.'] then normSegsAcc rest (acc.drop 1)
    else normSegsAcc rest (s :: acc)

/-- Normalised form of an absolute path (see `normSegsAcc`). -/
def pnormAbs (p : String) : String :=
  String.mk ((normSegsAcc (splitAllChar '/' p.data) []).foldr
    (fun s acc => '/' :: s ++ acc) [])

/-- `os.path.abspath(p)` relative to a working directory `cwd`:
`normpath(join(cwd, p))`. -/
def pabspath (cwd p : String) : String := pnormAbs (pjoin cwd p)

/-- The file a path designates when handed to the operating system from
working directory `cwd` (relative paths are taken against `cwd`, then the
path is normalised). -/
def osPathOf (cwd p : String) : String := pnormAbs (pjoin cwd p)

/-- An immutable snapshot of the file system: normalised absolute path →
content. -/
structure SimFS where
  files : List (String × String)

/-- Read the file `p` designates from working directory `cwd`;
`none` when it does not exist (`os.path.exists` is `(read _).isSome`). -/
def SimFS.read (fs : SimFS) (cwd p : String) : Option String :=
  (fs.files.find? (fun f => f.1 = osPathOf cwd p)).map (fun f => f.2)

/-- The path-resolution step of `construct_cfntools_include_file`
(cfn_processing.py lines 38-45): an absolute path is used as-is; a
relative path is joined to the directory of the loader's `name` when that
attribute is truthy (PyYAML always sets it — to the string
`"<unicode string>"` for string streams — so `""` here stands for a falsy
value), and otherwise made absolute against the working directory. -/
def resolveIncludePath (cwd loaderName filePath : String) : String :=
  if !pisabs filePath then
    if loaderName ≠ "" then pjoin (pdirname loaderName) filePath
    else pabspath cwd filePath
  else filePath

/-! ### The stringify transform (`construct_cfntools_to_string`) -/

/-- `cloudformation_tag_to_dict` composed through
`prepare_value_for_serialization`: tag objects become the one-key dict
`{"!" + className.replace("Tag", ""): value}` — the class names of the
tag classes are derived from the tag literal, so the key is the tag
literal — with the tag's own value *not* recursed (exactly as in the
source); dicts and lists are rewritten recursively; plain values pass
through. -/
def prepareValue (fuel : Nat) (v : PyVal) : Option PyVal :=
  match fuel with
  | 0 => none
  | fuel + 1 =>
    match v with
    | .cfn _name tag dat => some (.pdict [(tag, dat)])
    | .pdict xs =>
      (xs.mapM (fun kv => (prepareValue fuel kv.2).map (fun w => (kv.1, w)))).map
        PyVal.pdict
    | .plist xs => (xs.mapM (prepareValue fuel)).map PyVal.plist
    | w => some w

/-- Whether a value still contains a tag object (the plain `yaml.dump`
used by the stringify transform has no representer for tag objects and
raises on them). -/
def hasTagObject (fuel : Nat) (v : PyVal) : Bool :=
  match fuel with
  | 0 => true
  | fuel + 1 =>
    match v with
    | .cfn _ _ _ => true
    | .plist xs => xs.any (hasTagObject fuel)
    | .pdict xs => xs.any (fun kv => hasTagObject fuel kv.2)
    | _ => false

/-- JSON string escaping (`json.dumps` with `ensure_ascii=False`; control
characters other than newline, tab and carriage return are outside the
modelled fragment and pass through). -/
def jsonEscape (cs : List Char) : List Char :=
  cs.flatMap (fun c =>
    if c = '"' then ['\\', '"']
    else if c = '\\' then ['\\', '\\']
    else if c = '\n' then ['\\', 'n']
    else if c = '\t' then ['\\', 't']
    else if c = '\r' then ['\\', 'r']
    else [c])

/-- JSON text of a scalar value (`none` on values `json.dumps` rejects,
such as tag objects). -/
def jsonScalar : PyVal → Option (List Char)
  | .pstr s => some ('"' :: jsonEscape s.data ++ ['"'])
  | .pint n => some (toString n).data
  | .pbool b => some (if b then "true".data else "false".data)
  | .pnone => some "null".data
  | _ => none

/-- Intercalate a separator between chunks. -/
def joinWith (sep : List Char) : List (List Char) → List Char
  | [] => []
  | [l] => l
  | l :: ls => l ++ sep ++ joinWith sep ls

/-- `json.dumps(v, separators=(",", ":"), ensure_ascii=False)`: compact
one-line rendering with no whitespace around separators. -/
def jsonCompact (fuel : Nat) (v : PyVal) : Option (List Char) :=
  match fuel with
  | 0 => none
  | fuel + 1 =>
    match v with
    | .plist xs => do
      let parts ← xs.mapM (jsonCompact fuel)
      some ('[' :: joinWith [','] parts ++ [']'])
    | .pdict xs => do
      let parts ← xs.mapM (fun (kv : String × PyVal) => do
        let w ← jsonCompact fuel kv.2
        some ('"' :: jsonEscape kv.1.data ++ '"' :: ':' :: w))
      some ('{' :: joinWith [','] parts ++ ['}'])
    | w => jsonScalar w

/-- `json.dumps(v, indent=2, ensure_ascii=False)`: multi-line rendering,
children indented two spaces deeper than their container, item separator
`,\n`, key separator `": "`; empty containers stay on one line. -/
def jsonIndented (fuel : Nat) (lvl : Nat) (v : PyVal) : Option (List Char) :=
  match fuel with
  | 0 => none
  | fuel + 1 =>
    match v with
    | .plist [] => some "[]".data
    | .pdict [] => some "{}".data
    | .plist xs => do
      let parts ← xs.mapM (jsonIndented fuel (lvl + 2))
      some ('[' :: '\n' ::
        joinWith [',', '\n'] (parts.map (fun p => indentSp (lvl + 2) ++ p)) ++
        '\n' :: indentSp lvl ++ [']'])
    | .pdict xs => do
      let parts ← xs.mapM (fun (kv : String × PyVal) => do
        let w ← jsonIndented fuel (lvl + 2) kv.2
        some ('"' :: jsonEscape kv.1.data ++ '"' :: ':' :: ' ' :: w))
      some ('{' :: '\n' ::
        joinWith [',', '\n'] (parts.map (fun p => indentSp (lvl + 2) ++ p)) ++
        '\n' :: indentSp lvl ++ ['}'])
    | w => jsonScalar w

/-- Strip all trailing newlines (`result.rstrip("\n")`). -/
def rstripNl (cs : List Char) : List Char :=
  (cs.reverse.dropWhile (fun c => c = '\n')).reverse

/-- `result.replace("\n", " ")`. -/
def replaceNlSpace (s : String) : String :=
  String.mk (s.data.map (fun c => if c = '\n' then ' ' else c))

/-- Python `str()` of the scalar values the stringify fallback branch can
meet: `str(42) = "42"`, `str(True) = "True"`, `str(False) = "False"`,
`str(None) = "None"`.  `str()` of a tag object comes from the absent
`cfn_yaml` module and is outside the model. -/
def pyStr : PyVal → Option String
  | .pint n => some (toString n)
  | .pbool b => some (if b then "True" else "False")
  | .pnone => some "None"
  | .pstr s => some s
  | _ => none

/-- The body of `construct_cfntools_to_string` after the sequence has been
constructed (`values = loader.construct_sequence(node, deep=True)`):
validate the optional parameter mapping (`ConvertTo` must be
`"YAMLString"` or `"JSONString"`, default `"JSONString"`; `OneLine` must
be a boolean, default `False`); strings pass through; dicts and lists are
prepared with `prepareValue` and serialized — YAML mode: block-style dump
with all trailing newlines stripped (a remaining tag object makes the
plain dumper raise); JSON mode: compact separators when `OneLine`,
2-space indent otherwise; any other value is converted with `str()`.
Finally `OneLine` collapses newlines to spaces for string inputs. -/
def constructCfnToolsToString (fuel : Nat) (values : List PyVal) :
    Except String String :=
  match values with
  | [] => .error "!CFNToolsToString requires at least one parameter"
  | value :: rest => do
    let co ←
      match rest with
      | [] => .ok ("JSONString", false)
      | o :: _ =>
        match o with
        | .pdict options => do
          let convertTo ←
            match dictLookup options "ConvertTo" with
            | none => .ok "JSONString"
            | some (.pstr s) =>
              if s = "YAMLString" ∨ s = "JSONString" then .ok s
              else .error "ConvertTo must be YAMLString or JSONString"
            | some _ => .error "ConvertTo must be YAMLString or JSONString"
          let oneLine ←
            match dictLookup options "OneLine" with
            | none => .ok false
            | some (.pbool b) => .ok b
            | some _ => .error "OneLine must be a boolean"
          .ok (convertTo, oneLine)
        | _ => .error "optional parameters must be a mapping"
    let convertTo := co.1
    let oneLine := co.2
    let result ←
      match value with
      | .pstr s => .ok s
      | .pdict _ | .plist _ => do
        let prepared ←
          match prepareValue fuel value with
          | some p => .ok p
          | none => .error "recursion depth exhausted"
        if convertTo = "YAMLString" then
          if hasTagObject fuel prepared then .error "RepresenterError"
          else
            match (representData fuel prepared).bind (emitDocRoot fuel) with
            | some t => .ok (String.mk (rstripNl t))
            | none => .error "yaml dump outside modelled fragment"
        else
          if oneLine then
            match jsonCompact fuel prepared with
            | some t => .ok (String.mk t)
            | none => .error "TypeError: not JSON serializable"
          else
            match jsonIndented fuel 0 prepared with
            | some t => .ok (String.mk t)
            | none => .error "TypeError: not JSON serializable"
      | w =>
        match pyStr w with
        | some r => .ok r
        | none => .error "str() outside modelled fragment"
    if oneLine && (match value with | .pstr _ => true | _ => false) then
      .ok (replaceNlSpace result)
    else .ok result

/-! ### The processing loader (`CloudFormationProcessingLoader`) -/

/-- Node construction of the `CloudFormationProcessingLoader`: the core
constructors, the CloudFormation tag constructors (the base class comes
from the `cfn_yaml` module, which is not under `src/`; its tag set and
shapes are the registry table, so its construction is modelled like
`constructObject`), and the two processing tags of `cfn_processing.py`:

* `!CFNToolsIncludeFile` (`construct_cfntools_include_file`): requires a
  scalar node; an empty path, a missing file, or a non-scalar node raise;
  the path is resolved with `resolveIncludePath` from the loader's `name`;
  `.yaml`/`.yml` content (extension lower-cased) is loaded with
  `yaml.load(content, Loader=loader.__class__)` — a *fresh* loader over a
  string stream, whose PyYAML `name` attribute is the constant
  `"<unicode string>"`, not the included file's path — with errors of the
  nested load wrapped in an "error reading file" message; other content is
  returned as a plain string (`.json` decoding is outside the modelled
  fragment).
* `!CFNToolsToString` (`construct_cfntools_to_string`): requires a
  sequence node, constructs it deeply, and stringifies the values with
  `constructCfnToolsToString`. -/
def constructProcObject (fuel : Nat) (fs : SimFS) (cwd loaderName : String)
    (node : YNode) : Except String PyVal :=
  match fuel with
  | 0 => .error "recursion depth exhausted"
  | fuel + 1 =>
    let includeFromPath : String → Except String PyVal := fun filePath =>
      if filePath = "" then .error "!CFNToolsIncludeFile tag must specify a file path"
      else
        let path := resolveIncludePath cwd loaderName filePath
        match fs.read cwd path with
        | none => .error ("!CFNToolsIncludeFile: file not found: " ++ path)
        | some content =>
          let ext := String.mk ((psuffix path).data.map Char.toLower)
          if ext = ".yaml" ∨ ext = ".yml" then
            match parseDocLines (splitLines content.data) with
            | none => .error "!CFNToolsIncludeFile: error reading file (parse outside modelled fragment)"
            | some nd =>
              match constructProcObject fuel fs cwd "<unicode string>" nd with
              | .ok w => .ok w
              | .error e => .error ("!CFNToolsIncludeFile: error reading file: " ++ e)
          else if ext = ".json" then
            .error "!CFNToolsIncludeFile: json decoding outside modelled fragment"
          else .ok (.pstr content)
    match node with
    | .yscalar tag v _ =>
      if tag = strTag then .ok (.pstr v)
      else if tag = intTag then .ok (.pint (parseYamlInt v))
      else if tag = boolTag then .ok (.pbool (trueWords.contains v))
      else if tag = nullTag then .ok .pnone
      else if tag = "!CFNToolsIncludeFile" then includeFromPath v
      else if tag = "!CFNToolsToString" then .error "expected a sequence node"
      else cfnConstructDispatch (constructProcObject fuel fs cwd loaderName) node tag
    | .yseq tag items =>
      if tag = seqTag then
        (items.mapM (constructProcObject fuel fs cwd loaderName)).map PyVal.plist
      else if tag = "!CFNToolsIncludeFile" then
        .error "expected a scalar node for file path"
      else if tag = "!CFNToolsToString" then do
        let values ← items.mapM (constructProcObject fuel fs cwd loaderName)
        (constructCfnToolsToString fuel values).map PyVal.pstr
      else cfnConstructDispatch (constructProcObject fuel fs cwd loaderName) node tag
    | .ymap tag _ =>
      if tag = mapTag then
        (constructMappingWith (constructProcObject fuel fs cwd loaderName) node).map
          PyVal.pdict
      else if tag = "!CFNToolsIncludeFile" then
        .error "expected a scalar node for file path"
      else if tag = "!CFNToolsToString" then .error "expected a sequence node"
      else cfnConstructDispatch (constructProcObject fuel fs cwd loaderName) node tag

/-- `load_yaml(stream, file_name)` of `cfn_processing.py`: a
`CloudFormationProcessingLoader` is created over the string stream (PyYAML
sets its `name` to `"<unicode string>"`), the truthy `file_name` — when
given — replaces that name, and the single document is constructed. -/
def loadYamlProc (fuel : Nat) (fs : SimFS) (cwd : String) (stream : String)
    (fileName : Option String) : Except String PyVal :=
  let name :=
    match fileName with
    | some n => if n ≠ "" then n else "<unicode string>"
    | none => "<unicode string>"
  match parseDocLines (splitLines stream.data) with
  | none => .error "parse error (outside modelled fragment)"
  | some nd => constructProcObject fuel fs cwd name nd

/-- `load_yaml_file(file_path)` of `cfn_processing.py`: read the file and
load it with its path as the loader name. -/
def loadYamlFileProc (fuel : Nat) (fs : SimFS) (cwd path : String) :
    Except String PyVal :=
  match fs.read cwd path with
  | none => .error "IOError: file not found"
  | some content => loadYamlProc fuel fs cwd content (some path)

/-! ### The canonical short-form document fragment (for the round-trip law)

"Canonical short-form tag syntax" is the output format of the project's own
dumper: a root mapping pair `Key: !Tag <payload>` where a scalar payload
matches the representer's identifier pattern and sits on the key's line, a
sequence payload is a block of indentless `- item` lines of plain scalars,
and a mapping payload is a block of two-space-indented `key: value` lines
of plain scalars, with a trailing newline. -/

/-- Key characters of the canonical fragment: ASCII alphanumerics, `_`, `-`. -/
def keyChar (c : Char) : Bool := c.isAlphanum || c = '_' || c = '-'

/-- A canonical mapping key: an implicit plain `str` scalar over the key
character set. -/
def keyOk (k : String) : Bool :=
  (resolveScalar k == strTag) && plainValueOk k && k.data.all keyChar

/-- A canonical plain scalar item or value: resolves implicitly to `str`
and is plain-emittable. -/
def itemOk (v : String) : Bool := (resolveScalar v == strTag) && plainValueOk v

/-- A registered tag text: a nonempty ASCII alphanumeric word (true of all
18 registered tags, e.g. `GetAtt`, `Base64`). -/
def tagOk (t : String) : Bool := t.data ≠ [] && t.data.all Char.isAlphanum

/-- The node an untagged plain scalar text parses to. -/
def plainNode (v : String) : YNode := .yscalar (resolveScalar v) v none

/-- Canonical short-form payloads. -/
inductive CanonPayload where
  | scal (s : String)
  | seqP (items : List String)
  | mapP (prs : List (String × String))
  deriving DecidableEq, Repr

/-- Which canonical payload forms a shape kind admits in canonical
short-form text. -/
def shapeAdmits : TagShape → CanonPayload → Bool
  | .scalarK, .scal _ => true
  | .sequenceOrScalarK, .scal _ => true
  | .mappingOrScalarK, .scal _ => true
  | .sequenceK, .seqP _ => true
  | .sequenceOrScalarK, .seqP _ => true
  | .mappingK, .mapP _ => true
  | .mappingOrScalarK, .mapP _ => true
  | _, _ => false

/-- Well-formedness of a canonical payload: a scalar payload matches the
representer's identifier pattern and has no newline; items, keys and
values are canonical plain scalars; collections are nonempty and mapping
keys are distinct. -/
def canonWf : CanonPayload → Prop
  | .scal s => cfnPattern s = true ∧ ¬ s.data.contains '\n'
  | .seqP items => items ≠ [] ∧ ∀ it ∈ items, itemOk it = true
  | .mapP prs => prs ≠ [] ∧ (prs.map Prod.fst).Nodup ∧
      ∀ pr ∈ prs, keyOk pr.1 = true ∧ itemOk pr.2 = true

/-- The first line of a canonical document: `key: !Tag` plus an optional
inline scalar. -/
def canonLine0 (k tg : String) (inline : List Char) : List Char :=
  k.data ++ ':' :: ' ' :: '!' :: (tg.data ++ inline)

/-- The lines of a canonical short-form document for a registered tag
text `tg` (without its `!`). -/
def canonLines (k tg : String) : CanonPayload → List (List Char)
  | .scal s => [canonLine0 k tg (' ' :: s.data), []]
  | .seqP items =>
    canonLine0 k tg [] :: items.map (fun it => '-' :: ' ' :: it.data) ++ [[]]
  | .mapP prs =>
    canonLine0 k tg [] ::
      prs.map (fun pr => ' ' :: ' ' :: pr.1.data ++ ':' :: ' ' :: pr.2.data) ++ [[]]

/-- Canonical short-form document text. -/
def canonText (k tg : String) (p : CanonPayload) : String :=
  String.mk (joinLines (canonLines k tg p))

/-- The lines `dump_yaml` actually writes for a canonical document: a
scalar payload is a non-implicit tagged scalar, which the emitter
single-quotes (`choose_scalar_style` treats the representer's `style=""`
as unset); sequence and mapping payloads are written exactly as
`canonLines`. -/
def canonOutLines (k tg : String) : CanonPayload → List (List Char)
  | .scal s => [canonLine0 k tg (' ' :: '\'' :: (s.data ++ ['\''])), []]
  | p => canonLines k tg p

/-- The text `dump_yaml` actually produces for a canonical document. -/
def canonTextOut (k tg : String) (p : CanonPayload) : String :=
  String.mk (joinLines (canonOutLines k tg p))

/-- The payload value a canonical payload loads to. -/
def canonPayloadVal : CanonPayload → PyVal
  | .scal s => .pstr s
  | .seqP items => .plist (items.map PyVal.pstr)
  | .mapP prs => .pdict (prs.map (fun pr => (pr.1, PyVal.pstr pr.2)))

/-- The tree a canonical document loads to. -/
def canonVal (k : String) (td : TagDef) (p : CanonPayload) : PyVal :=
  .pdict [(k, .cfn td.name (tagLiteral td) (canonPayloadVal p))]

/-! ## Helper lemmas -/

theorem mk_data (s : String) : String.mk s.data = s := rfl

theorem data_mk (l : List Char) : (String.mk l).data = l := rfl

theorem bang_data (tg : String) : ("!" ++ tg).data = '!' :: tg.data := by
  rw [String.data_append]; rfl

theorem bang_mk (tg : String) : String.mk ('!' :: tg.data) = "!" ++ tg := by
  rw [← bang_data, mk_data]

theorem all_not_mem {p : Char → Bool} {l : List Char} (h : l.all p = true) {c : Char}
    (hc : p c = false) : c ∉ l := by
  intro hm
  have := List.all_eq_true.mp h c hm
  rw [hc] at this
  exact Bool.noConfusion this

theorem splitAtChar_append (c : Char) (a b : List Char) (h : c ∉ a) :
    splitAtChar c (a ++ c :: b) = some (a, b) := by
  induction a with
  | nil => simp [splitAtChar]
  | cons x xs ih =>
    have hx : ¬(x = c) := fun he => h (he ▸ List.mem_cons_self x xs)
    have ih' := ih (fun hm => h (List.mem_cons_of_mem _ hm))
    simp [splitAtChar, hx, ih']

theorem splitAtChar_none (c : Char) (l : List Char) (h : c ∉ l) :
    splitAtChar c l = none := by
  induction l with
  | nil => rfl
  | cons x xs ih =>
    have hx : ¬(x = c) := fun he => h (he ▸ List.mem_cons_self x xs)
    have ih' := ih (fun hm => h (List.mem_cons_of_mem _ hm))
    simp [splitAtChar, hx, ih']

theorem splitAllChar_no (c : Char) (l : List Char) (h : c ∉ l) :
    splitAllChar c l = [l] := by
  induction l with
  | nil => rfl
  | cons x xs ih =>
    have hx : ¬(x = c) := fun he => h (he ▸ List.mem_cons_self x xs)
    have ih' := ih (fun hm => h (List.mem_cons_of_mem _ hm))
    simp [splitAllChar, hx, ih']

theorem splitAllChar_append (c : Char) (l t : List Char) (h : c ∉ l) :
    splitAllChar c (l ++ c :: t) = l :: splitAllChar c t := by
  induction l with
  | nil => simp [splitAllChar]
  | cons x xs ih =>
    have hx : ¬(x = c) := fun he => h (he ▸ List.mem_cons_self x xs)
    have ih' := ih (fun hm => h (List.mem_cons_of_mem _ hm))
    simp [splitAllChar, hx, ih']

theorem splitLines_joinLines (ls : List (List Char)) (h : ls ≠ [])
    (hnl : ∀ l ∈ ls, '\n' ∉ l) : splitLines (joinLines ls) = ls := by
  induction ls with
  | nil => exact absurd rfl h
  | cons l rest ih =>
    cases rest with
    | nil =>
      show splitAllChar '\n' l = [l]
      exact splitAllChar_no _ _ (hnl l (by simp))
    | cons l2 rest2 =>
      show splitAllChar '\n' (l ++ '\n' :: joinLines (l2 :: rest2)) = _
      rw [splitAllChar_append _ _ _ (hnl l (by simp))]
      have := ih (by simp) (fun x hx => hnl x (List.mem_cons_of_mem _ hx))
      simp only [splitLines] at this
      rw [this]

theorem joinLines_final (body : List (List Char)) :
    joinLines (body ++ [[]]) = (body.map (fun l => l ++ ['\n'])).flatten := by
  induction body with
  | nil => rfl
  | cons l rest ih =>
    cases rest with
    | nil => simp [joinLines]
    | cons l2 rest2 =>
      show l ++ '\n' :: joinLines ((l2 :: rest2) ++ [[]]) = _
      rw [ih]
      simp

theorem initIfLastEmpty_append (body : List (List Char)) :
    initIfLastEmpty (body ++ [[]]) = some body := by
  induction body with
  | nil => rfl
  | cons l rest ih =>
    cases rest with
    | nil => rfl
    | cons l2 rest2 =>
      show initIfLastEmpty (l :: (l2 :: rest2) ++ [[]]) = _
      simp only [List.cons_append] at ih ⊢
      rw [show initIfLastEmpty (l :: l2 :: (rest2 ++ [[]])) =
        (initIfLastEmpty (l2 :: (rest2 ++ [[]]))).map (l :: ·) from rfl, ih]
      rfl

theorem alphanum_ne (c : Char) (h : c.isAlphanum = true) (d : Char)
    (hd : d.isAlphanum = false) : c ≠ d := by
  intro he
  rw [he, hd] at h
  exact Bool.noConfusion h

theorem alpha_ne (c : Char) (h : c.isAlpha = true) (d : Char)
    (hd : d.isAlpha = false) : c ≠ d := by
  intro he
  rw [he, hd] at h
  exact Bool.noConfusion h

theorem resolveScalar_head (s : String) : (resolveScalar s).data.head? = some 't' := by
  unfold resolveScalar
  split_ifs <;> rfl

theorem tagLiteral_head (td : TagDef) : (tagLiteral td).data.head? = some '!' := by
  unfold tagLiteral
  split_ifs with h
  · exact h
  · rw [bang_data]
    rfl

theorem resolveScalar_ne_tagLiteral (s : String) (td : TagDef) :
    resolveScalar s ≠ tagLiteral td := by
  intro he
  have h1 := resolveScalar_head s
  rw [he, tagLiteral_head td] at h1
  exact absurd (Option.some.inj h1) (by decide)

theorem resolveScalar_ne_bang (s tg : String) : resolveScalar s ≠ "!" ++ tg := by
  intro he
  have h1 := resolveScalar_head s
  rw [he, bang_data] at h1
  exact absurd (Option.some.inj h1) (by decide)

theorem bang_ne_of_head_t (tg u : String) (hu : u.data.head? = some 't') :
    "!" ++ tg ≠ u := by
  intro he
  rw [← he, bang_data] at hu
  exact absurd (Option.some.inj hu) (by decide)

theorem itemOk_resolve {v : String} (h : itemOk v = true) : resolveScalar v = strTag := by
  unfold itemOk at h
  simp only [Bool.and_eq_true, beq_iff_eq] at h
  exact h.1

theorem itemOk_plain {v : String} (h : itemOk v = true) : plainValueOk v = true := by
  unfold itemOk at h
  simp only [Bool.and_eq_true, beq_iff_eq] at h
  exact h.2

theorem keyOk_resolve {k : String} (h : keyOk k = true) : resolveScalar k = strTag := by
  unfold keyOk at h
  simp only [Bool.and_eq_true, beq_iff_eq] at h
  exact h.1.1

theorem keyOk_plain {k : String} (h : keyOk k = true) : plainValueOk k = true := by
  unfold keyOk at h
  simp only [Bool.and_eq_true, beq_iff_eq] at h
  exact h.1.2

theorem keyOk_chars {k : String} (h : keyOk k = true) : k.data.all keyChar = true := by
  unfold keyOk at h
  simp only [Bool.and_eq_true, beq_iff_eq] at h
  exact h.2

theorem keyOk_itemOk {k : String} (h : keyOk k = true) : itemOk k = true := by
  unfold itemOk
  simp only [Bool.and_eq_true, beq_iff_eq]
  exact ⟨keyOk_resolve h, keyOk_plain h⟩

theorem plainValueOk_head {v : String} (h : plainValueOk v = true) :
    ∃ c cs, v.data = c :: cs ∧ c.isAlphanum = true := by
  unfold plainValueOk at h
  cases hd : v.data with
  | nil => rw [hd] at h; exact Bool.noConfusion h
  | cons c cs =>
    rw [hd] at h
    simp only [Bool.and_eq_true] at h
    exact ⟨c, cs, rfl, h.1.1⟩

theorem plainValueOk_all {v : String} (h : plainValueOk v = true) :
    v.data.all plainBodyChar = true := by
  unfold plainValueOk at h
  cases hd : v.data with
  | nil => rw [hd] at h; exact Bool.noConfusion h
  | cons c cs =>
    rw [hd] at h
    simp only [Bool.and_eq_true] at h
    exact h.1.2

theorem plainValueOk_no_nl {v : String} (h : plainValueOk v = true) : '\n' ∉ v.data :=
  all_not_mem (plainValueOk_all h) (by decide)

theorem keyOk_no_colon {k : String} (h : keyOk k = true) : ':' ∉ k.data :=
  all_not_mem (keyOk_chars h) (by decide)

theorem keyOk_no_nl {k : String} (h : keyOk k = true) : '\n' ∉ k.data :=
  all_not_mem (keyOk_chars h) (by decide)

theorem tagOk_no_space {t : String} (h : tagOk t = true) : ' ' ∉ t.data := by
  unfold tagOk at h
  simp only [Bool.and_eq_true] at h
  exact all_not_mem h.2 (by decide)

theorem tagOk_no_colon {t : String} (h : tagOk t = true) : ':' ∉ t.data := by
  unfold tagOk at h
  simp only [Bool.and_eq_true] at h
  exact all_not_mem h.2 (by decide)

theorem tagOk_no_nl {t : String} (h : tagOk t = true) : '\n' ∉ t.data := by
  unfold tagOk at h
  simp only [Bool.and_eq_true] at h
  exact all_not_mem h.2 (by decide)

theorem tagOk_no_space_any {t : String} (h : tagOk t = true) :
    (t.data ++ []).any (fun c => c = ' ') = false := by
  rw [List.append_nil]
  rw [List.any_eq_false]
  intro c hc
  simp only [decide_eq_true_eq]
  intro he
  exact tagOk_no_space h (he ▸ hc)

theorem cfnPattern_head {s : String} (h : cfnPattern s = true) :
    ∃ c cs, s.data = c :: cs ∧ c.isAlpha = true := by
  unfold cfnPattern at h
  cases hd : s.data with
  | nil => rw [hd] at h; exact Bool.noConfusion h
  | cons c cs =>
    rw [hd] at h
    simp only [Bool.and_eq_true] at h
    exact ⟨c, cs, rfl, h.1⟩


theorem parseInlineNode_plain (v : String) (h : itemOk v = true) :
    parseInlineNode v.data = some (plainNode v) := by
  obtain ⟨c, cs, hd, hcal⟩ := plainValueOk_head (itemOk_plain h)
  rw [hd]
  simp only [parseInlineNode]
  rw [if_neg (alphanum_ne c hcal '!' (by decide)),
      if_neg (alphanum_ne c hcal '\'' (by decide))]
  rw [← hd, mk_data]
  rfl

theorem parseInlineNode_bang (rest : List Char) :
    parseInlineNode ('!' :: rest) = parseTaggedInline rest := rfl

theorem parseInlineNode_tagged (tg s : String) (ht : tagOk tg = true)
    (hs : ∃ c cs, s.data = c :: cs ∧ c.isAlpha = true) :
    parseInlineNode ('!' :: (tg.data ++ ' ' :: s.data)) =
      some (.yscalar ("!" ++ tg) s none) := by
  rw [parseInlineNode_bang]
  unfold parseTaggedInline
  rw [splitAtChar_append ' ' tg.data s.data (tagOk_no_space ht), Option.some_bind]
  obtain ⟨c, cs, hd, hca⟩ := hs
  rw [hd]
  simp only [parseTagValue]
  rw [if_neg (alpha_ne c hca '\'' (by decide))]
  rw [← hd, mk_data, bang_mk]

theorem parseItemLine_dash (rest : List Char) :
    parseItemLine ('-' :: ' ' :: rest) = parseInlineNode rest := rfl

theorem parseMapLine_indent (rest : List Char) :
    parseMapLine (' ' :: ' ' :: rest) =
      (splitAtChar ':' rest).bind (fun p => parseMapValue p.1 p.2) := rfl

theorem parseMapValue_space (k v : List Char) :
    parseMapValue k (' ' :: v) =
      (parseInlineNode v).bind (fun n =>
        some (YNode.yscalar (resolveScalar (String.mk k)) (String.mk k) none, n)) := rfl

theorem parseItemLines_map (items : List String) (h : ∀ it ∈ items, itemOk it = true) :
    (items.map (fun it => '-' :: ' ' :: it.data)).mapM parseItemLine =
      some (items.map plainNode) := by
  induction items with
  | nil => rfl
  | cons it rest ih =>
    have h1 := h it (List.mem_cons_self _ _)
    have ih' := ih (fun x hx => h x (List.mem_cons_of_mem _ hx))
    have hline : parseItemLine ('-' :: ' ' :: it.data) = some (plainNode it) := by
      rw [parseItemLine_dash, parseInlineNode_plain it h1]
    rw [List.map_cons, List.mapM_cons, hline, ih']
    rfl

theorem parseMapLines_map (prs : List (String × String))
    (h : ∀ pr ∈ prs, keyOk pr.1 = true ∧ itemOk pr.2 = true) :
    (prs.map (fun pr => ' ' :: ' ' :: pr.1.data ++ ':' :: ' ' :: pr.2.data)).mapM
      parseMapLine = some (prs.map (fun pr => (plainNode pr.1, plainNode pr.2))) := by
  induction prs with
  | nil => rfl
  | cons pr rest ih =>
    obtain ⟨hk, hv⟩ := h pr (List.mem_cons_self _ _)
    have ih' := ih (fun x hx => h x (List.mem_cons_of_mem _ hx))
    have hline : parseMapLine (' ' :: ' ' :: pr.1.data ++ ':' :: ' ' :: pr.2.data)
        = some (plainNode pr.1, plainNode pr.2) := by
      simp only [List.cons_append]
      rw [parseMapLine_indent,
        splitAtChar_append ':' pr.1.data (' ' :: pr.2.data) (keyOk_no_colon hk),
        Option.some_bind, parseMapValue_space, parseInlineNode_plain pr.2 hv,
        Option.some_bind, mk_data]
      rfl
    rw [List.map_cons, List.mapM_cons, hline, ih']
    rfl

theorem tagOk_any_space {t : String} (h : tagOk t = true) :
    t.data.any (fun c => c = ' ') = false := by
  rw [List.any_eq_false]
  intro c hc
  simp only [decide_eq_true_eq]
  intro he
  exact tagOk_no_space h (he ▸ hc)

theorem parseDocLines_shape (l : List Char) (body : List (List Char)) :
    parseDocLines (l :: (body ++ [[]])) =
      (splitAtChar ':' l).bind (fun p => parseAfterKey p.1 p.2 body) := by
  show (initIfLastEmpty (body ++ [[]])).bind
    (fun b => (splitAtChar ':' l).bind (fun p => parseAfterKey p.1 p.2 b)) = _
  rw [initIfLastEmpty_append, Option.some_bind]

theorem parseAfterKey_space (k pay : List Char) (body : List (List Char)) :
    parseAfterKey k (' ' :: pay) body = parseDocBody k pay body := rfl

theorem parseDocBody_nil (k pay : List Char) :
    parseDocBody k pay [] =
      (parseInlineNode pay).bind (fun v =>
        some (.ymap mapTag
          [(.yscalar (resolveScalar (String.mk k)) (String.mk k) none, v)])) := rfl

theorem parseDocBody_block (k tagCs b0 : List Char) (brest : List (List Char)) :
    parseDocBody k ('!' :: tagCs) (b0 :: brest) =
      parseBlockPayload k tagCs (b0 :: brest) := rfl

theorem parseBodyLines_dash (l0 : List Char) (rest : List (List Char))
    (h : l0.head? = some '-') :
    parseBodyLines (l0 :: rest) = ((l0 :: rest).mapM parseItemLine).map Sum.inl := by
  show (if l0.head? = some '-' then ((l0 :: rest).mapM parseItemLine).map Sum.inl
        else ((l0 :: rest).mapM parseMapLine).map Sum.inr) = _
  rw [if_pos h]

theorem parseBodyLines_nodash (l0 : List Char) (rest : List (List Char))
    (h : ¬ l0.head? = some '-') :
    parseBodyLines (l0 :: rest) = ((l0 :: rest).mapM parseMapLine).map Sum.inr := by
  show (if l0.head? = some '-' then ((l0 :: rest).mapM parseItemLine).map Sum.inl
        else ((l0 :: rest).mapM parseMapLine).map Sum.inr) = _
  rw [if_neg h]

theorem parseDoc_scal (k tg s : String) (hk : keyOk k = true) (ht : tagOk tg = true)
    (hs : cfnPattern s = true) :
    parseDocLines (canonLines k tg (.scal s)) =
      some (.ymap mapTag [(plainNode k, .yscalar ("!" ++ tg) s none)]) := by
  show parseDocLines (canonLine0 k tg (' ' :: s.data) :: ([] ++ [[]])) = _
  rw [parseDocLines_shape]
  unfold canonLine0
  rw [splitAtChar_append ':' k.data _ (keyOk_no_colon hk), Option.some_bind,
    parseAfterKey_space, parseDocBody_nil,
    parseInlineNode_tagged tg s ht (cfnPattern_head hs), Option.some_bind, mk_data]
  rfl

theorem parseDoc_seq (k tg : String) (it0 : String) (irest : List String)
    (hk : keyOk k = true) (ht : tagOk tg = true)
    (hit : ∀ it ∈ it0 :: irest, itemOk it = true) :
    parseDocLines (canonLines k tg (.seqP (it0 :: irest))) =
      some (.ymap mapTag
        [(plainNode k, .yseq ("!" ++ tg) ((it0 :: irest).map plainNode))]) := by
  have hmap := parseItemLines_map (it0 :: irest) hit
  rw [List.map_cons] at hmap
  show parseDocLines (canonLine0 k tg [] ::
    (((it0 :: irest).map (fun it => '-' :: ' ' :: it.data)) ++ [[]])) = _
  rw [parseDocLines_shape]
  unfold canonLine0
  rw [List.append_nil]
  rw [splitAtChar_append ':' k.data _ (keyOk_no_colon hk), Option.some_bind,
    parseAfterKey_space, List.map_cons, parseDocBody_block]
  unfold parseBlockPayload
  rw [if_neg (show ¬(tg.data.any (fun c => c = ' ') = true) from
    by rw [tagOk_any_space ht]; exact Bool.noConfusion)]
  rw [parseBodyLines_dash ('-' :: ' ' :: it0.data) _ rfl]
  rw [hmap, Option.map_some', Option.some_bind]
  rw [mk_data, bang_mk]
  rfl

theorem parseDoc_map (k tg : String) (pr0 : String × String)
    (prest : List (String × String))
    (hk : keyOk k = true) (ht : tagOk tg = true)
    (hprs : ∀ pr ∈ pr0 :: prest, keyOk pr.1 = true ∧ itemOk pr.2 = true) :
    parseDocLines (canonLines k tg (.mapP (pr0 :: prest))) =
      some (.ymap mapTag
        [(plainNode k, .ymap ("!" ++ tg)
          ((pr0 :: prest).map (fun pr => (plainNode pr.1, plainNode pr.2))))]) := by
  have hmap := parseMapLines_map (pr0 :: prest) hprs
  rw [List.map_cons] at hmap
  simp only [List.cons_append] at hmap
  show parseDocLines (canonLine0 k tg [] ::
    (((pr0 :: prest).map
      (fun pr => ' ' :: ' ' :: pr.1.data ++ ':' :: ' ' :: pr.2.data)) ++ [[]])) = _
  rw [parseDocLines_shape]
  unfold canonLine0
  rw [List.append_nil]
  rw [splitAtChar_append ':' k.data _ (keyOk_no_colon hk), Option.some_bind,
    parseAfterKey_space, List.map_cons, parseDocBody_block]
  simp only [List.cons_append]
  unfold parseBlockPayload
  rw [if_neg (show ¬(tg.data.any (fun c => c = ' ') = true) from
    by rw [tagOk_any_space ht]; exact Bool.noConfusion)]
  rw [parseBodyLines_nodash (' ' :: ' ' :: (pr0.1.data ++ ':' :: ' ' :: pr0.2.data)) _
    (fun hh => absurd (Option.some.inj hh) (by decide))]
  rw [hmap, Option.map_some', Option.some_bind]
  rw [mk_data, bang_mk]
  rfl

theorem mapM_except_map {α β γ : Type} (f : β → Except String γ) (m : α → β)
    (g : α → γ) : ∀ xs : List α, (∀ x ∈ xs, f (m x) = .ok (g x)) →
    (xs.map m).mapM f = .ok (xs.map g)
  | [], _ => rfl
  | x :: xs, hf => by
    have h1 := hf x (List.mem_cons_self _ _)
    have ih := mapM_except_map f m g xs (fun y hy => hf y (List.mem_cons_of_mem _ hy))
    rw [List.map_cons, List.mapM_cons, h1, ih]
    rfl

theorem mapM_option_map {α β γ : Type} (f : β → Option γ) (m : α → β)
    (g : α → γ) : ∀ xs : List α, (∀ x ∈ xs, f (m x) = some (g x)) →
    (xs.map m).mapM f = some (xs.map g)
  | [], _ => rfl
  | x :: xs, hf => by
    have h1 := hf x (List.mem_cons_self _ _)
    have ih := mapM_option_map f m g xs (fun y hy => hf y (List.mem_cons_of_mem _ hy))
    rw [List.map_cons, List.mapM_cons, h1, ih]
    rfl

theorem constructObject_bang_scalar (fuel : Nat) (tg v : String) (st : Option String) :
    constructObject (fuel + 1) (.yscalar ("!" ++ tg) v st) =
      cfnConstructDispatch (constructObject fuel) (.yscalar ("!" ++ tg) v st)
        ("!" ++ tg) := rfl

theorem constructObject_bang_seq (fuel : Nat) (tg : String) (items : List YNode) :
    constructObject (fuel + 1) (.yseq ("!" ++ tg) items) =
      cfnConstructDispatch (constructObject fuel) (.yseq ("!" ++ tg) items)
        ("!" ++ tg) := rfl

theorem constructObject_bang_map (fuel : Nat) (tg : String) (prs : List (YNode × YNode)) :
    constructObject (fuel + 1) (.ymap ("!" ++ tg) prs) =
      cfnConstructDispatch (constructObject fuel) (.ymap ("!" ++ tg) prs)
        ("!" ++ tg) := rfl

theorem constructObject_plain (fuel : Nat) (v : String) (h : resolveScalar v = strTag) :
    constructObject (fuel + 1) (plainNode v) = .ok (.pstr v) := by
  unfold plainNode
  rw [h]
  rfl

theorem constructObject_items (fuel : Nat) (items : List String)
    (h : ∀ it ∈ items, itemOk it = true) :
    (items.map plainNode).mapM (constructObject (fuel + 1)) =
      .ok (items.map PyVal.pstr) :=
  mapM_except_map _ _ _ items
    (fun it hit => constructObject_plain fuel it (itemOk_resolve (h it hit)))

theorem dictInsert_fresh (acc : List (String × PyVal)) (k : String) (v : PyVal)
    (h : ∀ a ∈ acc, a.1 ≠ k) : dictInsert acc k v = acc ++ [(k, v)] := by
  unfold dictInsert
  rw [if_neg]
  intro hany
  rw [List.any_eq_true] at hany
  obtain ⟨a, ha, hak⟩ := hany
  exact h a ha (of_decide_eq_true hak)

theorem foldl_dictInsert_nodup :
    ∀ (kvs acc : List (String × PyVal)), (kvs.map Prod.fst).Nodup →
    (∀ kv ∈ kvs, ∀ a ∈ acc, a.1 ≠ kv.1) →
    kvs.foldl (fun acc kv => dictInsert acc kv.1 kv.2) acc = acc ++ kvs
  | [], acc, _, _ => by simp
  | kv :: rest, acc, hnodup, hdisj => by
    rw [List.foldl_cons,
      dictInsert_fresh acc kv.1 kv.2 (fun a ha => hdisj kv (List.mem_cons_self _ _) a ha)]
    rw [List.map_cons, List.nodup_cons] at hnodup
    have hrest := foldl_dictInsert_nodup rest (acc ++ [kv]) hnodup.2
      (fun kv' hkv' a ha => by
        rcases List.mem_append.mp ha with h1 | h2
        · exact hdisj kv' (List.mem_cons_of_mem _ hkv') a h1
        · have : a = kv := by simpa using h2
          subst this
          intro he
          exact hnodup.1 (he ▸ List.mem_map_of_mem Prod.fst hkv'))
    rw [hrest]
    simp

theorem constructMappingWith_ymap (recur : YNode → Except String PyVal)
    (tag : String) (pairs : List (YNode × YNode)) :
    constructMappingWith recur (.ymap tag pairs) = (do
      let kvs ← pairs.mapM (fun (kv : YNode × YNode) => do
        let k ← recur kv.1
        match k with
        | .pstr ks => do
          let v ← recur kv.2
          Except.ok (ks, v)
        | _ => Except.error "non-string mapping key (outside modelled fragment)")
      Except.ok (kvs.foldl (fun acc kv => dictInsert acc kv.1 kv.2) [])) := rfl

theorem constructMappingWith_pairs (fuel : Nat) (tag : String)
    (prs : List (String × String))
    (h : ∀ pr ∈ prs, keyOk pr.1 = true ∧ itemOk pr.2 = true)
    (hnodup : (prs.map Prod.fst).Nodup) :
    constructMappingWith (constructObject (fuel + 1))
      (.ymap tag (prs.map (fun pr => (plainNode pr.1, plainNode pr.2)))) =
      .ok (prs.map (fun pr => (pr.1, PyVal.pstr pr.2))) := by
  have hm := mapM_except_map
    (fun (kv : YNode × YNode) => do
      let k ← constructObject (fuel + 1) kv.1
      match k with
      | .pstr ks => do
        let v ← constructObject (fuel + 1) kv.2
        Except.ok (ks, v)
      | _ => Except.error "non-string mapping key (outside modelled fragment)")
    (fun pr : String × String => (plainNode pr.1, plainNode pr.2))
    (fun pr : String × String => (pr.1, PyVal.pstr pr.2))
    prs
    (fun pr hpr => by
      obtain ⟨hk, hv⟩ := h pr hpr
      show (do
        let k ← constructObject (fuel + 1) (plainNode pr.1)
        match k with
        | .pstr ks => do
          let v ← constructObject (fuel + 1) (plainNode pr.2)
          Except.ok (ks, v)
        | _ => Except.error "non-string mapping key (outside modelled fragment)") = _
      rw [constructObject_plain fuel pr.1 (keyOk_resolve hk)]
      show (do
        let v ← constructObject (fuel + 1) (plainNode pr.2)
        Except.ok (pr.1, v)) = _
      rw [constructObject_plain fuel pr.2 (itemOk_resolve hv)]
      rfl)
  rw [constructMappingWith_ymap, hm]
  show Except.ok ((prs.map (fun pr => (pr.1, PyVal.pstr pr.2))).foldl
    (fun acc kv => dictInsert acc kv.1 kv.2) []) = _
  rw [foldl_dictInsert_nodup _ [] (by simpa using hnodup) (by simp)]
  rfl

theorem constructMappingWith_single (recur : YNode → Except String PyVal)
    (tag : String) (kn vn : YNode) (ks : String) (v : PyVal)
    (hk : recur kn = .ok (.pstr ks)) (hv : recur vn = .ok v) :
    constructMappingWith recur (.ymap tag [(kn, vn)]) = .ok [(ks, v)] := by
  rw [constructMappingWith_ymap]
  simp only [List.mapM_cons, hk, hv]
  rfl

theorem constructObject_root (fuel : Nat) (k : String) (hk : keyOk k = true)
    (vn : YNode) (v : PyVal) (hv : constructObject (fuel + 1) vn = .ok v) :
    constructObject (fuel + 2) (.ymap mapTag [(plainNode k, vn)]) =
      .ok (.pdict [(k, v)]) := by
  show (constructMappingWith (constructObject (fuel + 1))
    (.ymap mapTag [(plainNode k, vn)])).map PyVal.pdict = _
  rw [constructMappingWith_single _ _ _ _ k v
    (constructObject_plain fuel k (keyOk_resolve hk)) hv]
  rfl

theorem constructTagged_scal (fuel : Nat) (tg s : String) (st : Option String)
    (td : TagDef) (hfind : findTag ("!" ++ tg) = some td)
    (hsh : shapeAdmits td.type (.scal s) = true) :
    constructObject (fuel + 1) (.yscalar ("!" ++ tg) s st) =
      .ok (.cfn td.name (tagLiteral td) (.pstr s)) := by
  obtain ⟨nm, tgd, ty⟩ := td
  rw [constructObject_bang_scalar]
  unfold cfnConstructDispatch
  rw [hfind]
  cases ty <;> first
    | rfl
    | simp [shapeAdmits] at hsh

theorem constructTagged_seq (fuel : Nat) (tg : String) (items : List String)
    (td : TagDef) (hfind : findTag ("!" ++ tg) = some td)
    (hsh : shapeAdmits td.type (.seqP items) = true)
    (hit : ∀ it ∈ items, itemOk it = true) :
    constructObject (fuel + 2) (.yseq ("!" ++ tg) (items.map plainNode)) =
      .ok (.cfn td.name (tagLiteral td) (.plist (items.map PyVal.pstr))) := by
  obtain ⟨nm, tgd, ty⟩ := td
  rw [constructObject_bang_seq]
  unfold cfnConstructDispatch
  rw [hfind]
  have hseq : constructSequenceWith (constructObject (fuel + 1))
      (.yseq ("!" ++ tg) (items.map plainNode)) =
      Except.ok (items.map PyVal.pstr) := by
    show (items.map plainNode).mapM (constructObject (fuel + 1)) = _
    exact constructObject_items fuel items hit
  cases ty
  case scalarK => simp [shapeAdmits] at hsh
  case sequenceK => rw [hseq]; rfl
  case sequenceOrScalarK => rw [hseq]
  case mappingK => simp [shapeAdmits] at hsh
  case mappingOrScalarK => simp [shapeAdmits] at hsh

theorem constructTagged_map (fuel : Nat) (tg : String)
    (prs : List (String × String)) (td : TagDef)
    (hfind : findTag ("!" ++ tg) = some td)
    (hsh : shapeAdmits td.type (.mapP prs) = true)
    (hprs : ∀ pr ∈ prs, keyOk pr.1 = true ∧ itemOk pr.2 = true)
    (hnodup : (prs.map Prod.fst).Nodup) :
    constructObject (fuel + 2)
        (.ymap ("!" ++ tg) (prs.map (fun pr => (plainNode pr.1, plainNode pr.2)))) =
      .ok (.cfn td.name (tagLiteral td)
        (.pdict (prs.map (fun pr => (pr.1, PyVal.pstr pr.2))))) := by
  obtain ⟨nm, tgd, ty⟩ := td
  rw [constructObject_bang_map]
  unfold cfnConstructDispatch
  rw [hfind]
  have hpairs := constructMappingWith_pairs fuel ("!" ++ tg) prs hprs hnodup
  cases ty
  case scalarK => simp [shapeAdmits] at hsh
  case sequenceK => simp [shapeAdmits] at hsh
  case sequenceOrScalarK => simp [shapeAdmits] at hsh
  case mappingK => rw [hpairs]; rfl
  case mappingOrScalarK => rw [hpairs]

theorem prepTag_bang (tg : String) : prepTag ("!" ++ tg) = '!' :: tg.data := by
  unfold prepTag
  rw [bang_data]
  rw [if_neg]
  intro he
  cases hd : tg.data with
  | nil => rw [hd] at he; exact absurd he (by decide)
  | cons c rest =>
    rw [hd, List.take_succ_cons] at he
    exact absurd (List.cons.inj he).1 (by decide)

theorem emitScalarInline_implicit (t v : String) (hres : resolveScalar v = t)
    (h : plainValueOk v = true) : emitScalarInline t v none = some v.data := by
  subst hres
  simp [emitScalarInline, h]

theorem emitScalarInline_quoted (tg s : String) (st : Option String)
    (hsq : squotable s = true) :
    emitScalarInline ("!" ++ tg) s st =
      some (('!' :: tg.data) ++ ' ' :: ('\'' :: s.data ++ ['\''])) := by
  have hplain : (decide (resolveScalar s = "!" ++ tg) && plainValueOk s) = false := by
    rw [decide_eq_false (resolveScalar_ne_bang s tg)]
    rfl
  simp [emitScalarInline, hplain, hsq, prepTag_bang, bang_ne_of_head_t tg strTag rfl]

theorem emitKeyInline_ok (k : String) (hk : keyOk k = true) :
    emitKeyInline (.yscalar strTag k none) = some k.data := by
  simp [emitKeyInline, keyOk_resolve hk, keyOk_plain hk]

theorem emitValueText_scalar (fuel ind : Nat) (t v : String) (st : Option String) :
    emitValueText (fuel + 1) ind (.yscalar t v st) =
      (emitScalarInline t v st).map (fun s => ' ' :: s ++ ['\n']) := rfl

theorem emitValueText_yseq (fuel ind : Nat) (t : String) (n0 : YNode) (ns : List YNode) :
    emitValueText (fuel + 1) ind (.yseq t (n0 :: ns)) =
      ((n0 :: ns).mapM (fun (n : YNode) =>
          match n with
          | .yscalar t' v' st' =>
            (emitScalarInline t' v' st').map
              (fun s => indentSp ind ++ '-' :: ' ' :: s ++ ['\n'])
          | _ => none)).bind
        (fun body =>
          some ((if t = seqTag then [] else ' ' :: prepTag t) ++ '\n' :: body.flatten)) := rfl

theorem emitValueText_ymap (fuel ind : Nat) (t : String) (p0 : YNode × YNode)
    (ps : List (YNode × YNode)) :
    emitValueText (fuel + 1) ind (.ymap t (p0 :: ps)) =
      ((p0 :: ps).mapM (fun (kv : YNode × YNode) => do
          let kt ← emitKeyInline kv.1
          let vt ← emitValueText fuel (ind + 2) kv.2
          some (indentSp (ind + 2) ++ kt ++ ':' :: vt))).bind
        (fun body =>
          some ((if t = mapTag then [] else ' ' :: prepTag t) ++ '\n' :: body.flatten)) := rfl

theorem emitDocRoot_ymap (fuel : Nat) (kv0 : YNode × YNode)
    (ps : List (YNode × YNode)) :
    emitDocRoot fuel (.ymap mapTag (kv0 :: ps)) =
      ((kv0 :: ps).mapM (fun (kv : YNode × YNode) => do
        let a ← emitKeyInline kv.1
        let b ← emitValueText fuel 0 kv.2
        some (a ++ ':' :: b))).map List.flatten := rfl

theorem emitDocRoot_pair (fuel : Nat) (kn vn : YNode) (kt vt : List Char)
    (hk : emitKeyInline kn = some kt) (hv : emitValueText fuel 0 vn = some vt) :
    emitDocRoot fuel (.ymap mapTag [(kn, vn)]) = some (kt ++ ':' :: vt) := by
  rw [emitDocRoot_ymap]
  simp only [List.mapM_cons, List.mapM_nil, hk, hv]
  simp

theorem representData_pdict (fuel : Nat) (xs : List (String × PyVal)) :
    representData (fuel + 1) (.pdict xs) =
      (xs.mapM (fun kv => (representData fuel kv.2).map
        (fun w => (YNode.yscalar strTag kv.1 none, w)))).map (YNode.ymap mapTag) := rfl

theorem representData_cfn_list (fuel : Nat) (nm t : String) (xs : List PyVal) :
    representData (fuel + 1) (.cfn nm t (.plist xs)) =
      (xs.mapM (representData fuel)).map (YNode.yseq t) := rfl

theorem representData_cfn_dict (fuel : Nat) (nm t : String) (xs : List (String × PyVal)) :
    representData (fuel + 1) (.cfn nm t (.pdict xs)) =
      (xs.mapM (fun kv => (representData fuel kv.2).map
        (fun w => (YNode.yscalar strTag kv.1 none, w)))).map (YNode.ymap t) := rfl

theorem representData_cfn_str (fuel : Nat) (nm t s : String) (hs : cfnPattern s = true) :
    representData (fuel + 1) (.cfn nm t (.pstr s)) = some (.yscalar t s (some "")) := by
  show (if cfnPattern s then some (YNode.yscalar t s (some ""))
    else some (.yscalar t s none)) = _
  rw [if_pos hs]

theorem dumpYaml_canon_scal (fuel : Nat) (k tg nm s : String)
    (hk : keyOk k = true) (hs : cfnPattern s = true)
    (hsq : squotable s = true) :
    dumpYaml (fuel + 2) (.pdict [(k, .cfn nm ("!" ++ tg) (.pstr s))]) =
      some (canonTextOut k tg (.scal s)) := by
  unfold dumpYaml
  have h1 : representData (fuel + 1) (.cfn nm ("!" ++ tg) (.pstr s)) =
      some (.yscalar ("!" ++ tg) s (some "")) := representData_cfn_str fuel nm _ s hs
  have h2 : representData (fuel + 2) (.pdict [(k, .cfn nm ("!" ++ tg) (.pstr s))]) =
      some (.ymap mapTag
        [(.yscalar strTag k none, .yscalar ("!" ++ tg) s (some ""))]) := by
    rw [representData_pdict]
    simp only [List.mapM_cons, List.mapM_nil, h1]
    rfl
  rw [h2, Option.some_bind]
  have hvt : emitValueText (fuel + 2) 0 (.yscalar ("!" ++ tg) s (some "")) =
      some (' ' :: (('!' :: tg.data) ++ ' ' :: ('\'' :: s.data ++ ['\''])) ++ ['\n']) := by
    rw [show (fuel + 2) = (fuel + 1) + 1 from rfl, emitValueText_scalar,
      emitScalarInline_quoted tg s (some "") hsq]
    rfl
  rw [emitDocRoot_pair (fuel + 2) _ _ _ _ (emitKeyInline_ok k hk) hvt]
  unfold canonTextOut canonOutLines canonLine0
  simp [joinLines]

theorem dumpYaml_canon_seq (fuel : Nat) (k tg nm : String) (it0 : String)
    (irest : List String) (hk : keyOk k = true)
    (hit : ∀ it ∈ it0 :: irest, itemOk it = true) :
    dumpYaml (fuel + 3)
        (.pdict [(k, .cfn nm ("!" ++ tg) (.plist ((it0 :: irest).map PyVal.pstr)))]) =
      some (canonText k tg (.seqP (it0 :: irest))) := by
  unfold dumpYaml
  have h1 : representData (fuel + 2)
      (.cfn nm ("!" ++ tg) (.plist ((it0 :: irest).map PyVal.pstr))) =
      some (.yseq ("!" ++ tg)
        ((it0 :: irest).map (fun it => YNode.yscalar strTag it none))) := by
    rw [representData_cfn_list]
    rw [mapM_option_map (representData (fuel + 1)) PyVal.pstr
      (fun it => YNode.yscalar strTag it none) (it0 :: irest) (fun it _ => rfl)]
    rfl
  have h2 : representData (fuel + 3)
      (.pdict [(k, .cfn nm ("!" ++ tg) (.plist ((it0 :: irest).map PyVal.pstr)))]) =
      some (.ymap mapTag
        [(.yscalar strTag k none,
          .yseq ("!" ++ tg)
            ((it0 :: irest).map (fun it => YNode.yscalar strTag it none)))]) := by
    rw [representData_pdict]
    simp only [List.mapM_cons, List.mapM_nil, h1]
    rfl
  rw [h2, Option.some_bind]
  have hbody := mapM_option_map
    (fun (n : YNode) =>
      match n with
      | .yscalar t' v' st' =>
        (emitScalarInline t' v' st').map
          (fun s => indentSp 0 ++ '-' :: ' ' :: s ++ ['\n'])
      | _ => none)
    (fun it => YNode.yscalar strTag it none)
    (fun it => indentSp 0 ++ '-' :: ' ' :: it.data ++ ['\n'])
    (it0 :: irest)
    (fun it hmem => by
      show (emitScalarInline strTag it none).map
        (fun s => indentSp 0 ++ '-' :: ' ' :: s ++ ['\n']) = _
      rw [emitScalarInline_implicit strTag it (itemOk_resolve (hit it hmem))
        (itemOk_plain (hit it hmem))]
      rfl)
  have hvt : emitValueText (fuel + 3) 0
      (.yseq ("!" ++ tg) ((it0 :: irest).map (fun it => YNode.yscalar strTag it none))) =
      some ((' ' :: prepTag ("!" ++ tg)) ++ '\n' ::
        ((it0 :: irest).map
          (fun it => indentSp 0 ++ '-' :: ' ' :: it.data ++ ['\n'])).flatten) := by
    rw [List.map_cons] at hbody ⊢
    rw [show (fuel + 3) = (fuel + 2) + 1 from rfl, emitValueText_yseq]
    rw [hbody, Option.some_bind]
    rw [if_neg (bang_ne_of_head_t tg seqTag rfl)]
  rw [emitDocRoot_pair (fuel + 3) _ _ _ _ (emitKeyInline_ok k hk) hvt]
  rw [prepTag_bang]
  unfold canonText canonLines
  rw [← List.cons_append, joinLines_final]
  unfold canonLine0
  simp [indentSp, Function.comp_def]

theorem dumpYaml_canon_map (fuel : Nat) (k tg nm : String) (pr0 : String × String)
    (prest : List (String × String)) (hk : keyOk k = true)
    (hprs : ∀ pr ∈ pr0 :: prest, keyOk pr.1 = true ∧ itemOk pr.2 = true) :
    dumpYaml (fuel + 3)
        (.pdict [(k, .cfn nm ("!" ++ tg)
          (.pdict ((pr0 :: prest).map (fun pr => (pr.1, PyVal.pstr pr.2)))))]) =
      some (canonText k tg (.mapP (pr0 :: prest))) := by
  unfold dumpYaml
  have h1 : representData (fuel + 2)
      (.cfn nm ("!" ++ tg) (.pdict ((pr0 :: prest).map (fun pr => (pr.1, PyVal.pstr pr.2))))) =
      some (.ymap ("!" ++ tg)
        ((pr0 :: prest).map
          (fun pr => (YNode.yscalar strTag pr.1 none, YNode.yscalar strTag pr.2 none)))) := by
    rw [representData_cfn_dict]
    rw [mapM_option_map
      (fun kv : String × PyVal => (representData (fuel + 1) kv.2).map
        (fun w => (YNode.yscalar strTag kv.1 none, w)))
      (fun pr : String × String => (pr.1, PyVal.pstr pr.2))
      (fun pr : String × String =>
        (YNode.yscalar strTag pr.1 none, YNode.yscalar strTag pr.2 none))
      (pr0 :: prest) (fun pr _ => rfl)]
    rfl
  have h2 : representData (fuel + 3)
      (.pdict [(k, .cfn nm ("!" ++ tg)
        (.pdict ((pr0 :: prest).map (fun pr => (pr.1, PyVal.pstr pr.2)))))]) =
      some (.ymap mapTag
        [(.yscalar strTag k none,
          .ymap ("!" ++ tg)
            ((pr0 :: prest).map
              (fun pr => (YNode.yscalar strTag pr.1 none, YNode.yscalar strTag pr.2 none))))]) := by
    rw [representData_pdict]
    simp only [List.mapM_cons, List.mapM_nil, h1]
    rfl
  rw [h2, Option.some_bind]
  have hbody := mapM_option_map
    (fun (kv : YNode × YNode) => do
      let a ← emitKeyInline kv.1
      let b ← emitValueText (fuel + 2) (0 + 2) kv.2
      some (indentSp (0 + 2) ++ a ++ ':' :: b))
    (fun pr : String × String =>
      (YNode.yscalar strTag pr.1 none, YNode.yscalar strTag pr.2 none))
    (fun pr : String × String =>
      indentSp 2 ++ pr.1.data ++ ':' :: ' ' :: pr.2.data ++ ['\n'])
    (pr0 :: prest)
    (fun pr hmem => by
      obtain ⟨hpk, hpv⟩ := hprs pr hmem
      show (do
        let a ← emitKeyInline (YNode.yscalar strTag pr.1 none)
        let b ← emitValueText (fuel + 2) (0 + 2) (YNode.yscalar strTag pr.2 none)
        some (indentSp (0 + 2) ++ a ++ ':' :: b)) = _
      rw [emitKeyInline_ok pr.1 hpk]
      rw [show (fuel + 2) = (fuel + 1) + 1 from rfl, emitValueText_scalar,
        emitScalarInline_implicit strTag pr.2 (itemOk_resolve hpv) (itemOk_plain hpv)]
      simp [indentSp])
  have hvt : emitValueText (fuel + 3) 0
      (.ymap ("!" ++ tg)
        ((pr0 :: prest).map
          (fun pr => (YNode.yscalar strTag pr.1 none, YNode.yscalar strTag pr.2 none)))) =
      some ((' ' :: prepTag ("!" ++ tg)) ++ '\n' ::
        ((indentSp 2 ++ pr0.1.data ++ ':' :: ' ' :: pr0.2.data ++ ['\n']) ::
          prest.map
            (fun pr => indentSp 2 ++ pr.1.data ++ ':' :: ' ' :: pr.2.data ++ ['\n'])).flatten) := by
    rw [List.map_cons] at hbody ⊢
    rw [show (fuel + 3) = (fuel + 2) + 1 from rfl, emitValueText_ymap]
    rw [hbody, Option.some_bind]
    rw [if_neg (bang_ne_of_head_t tg mapTag rfl)]
    rw [List.map_cons]
  rw [emitDocRoot_pair (fuel + 3) _ _ _ _ (emitKeyInline_ok k hk) hvt]
  rw [prepTag_bang]
  unfold canonText canonLines
  rw [← List.cons_append, joinLines_final]
  unfold canonLine0
  simp [indentSp, Function.comp_def]

theorem not_contains_not_mem {l : List Char} {c : Char}
    (h : ¬ l.contains c = true) : c ∉ l := by
  intro hm
  exact h (List.elem_iff.mpr hm)

theorem canonLine0_no_nl (k tg : String) (inline : List Char) (hk : keyOk k = true)
    (ht : tagOk tg = true) (hin : '\n' ∉ inline) : '\n' ∉ canonLine0 k tg inline := by
  unfold canonLine0
  intro hm
  rcases List.mem_append.mp hm with h | h
  · exact keyOk_no_nl hk h
  · simp only [List.mem_cons] at h
    rcases h with h | h | h | h
    · exact absurd h (by decide)
    · exact absurd h (by decide)
    · exact absurd h (by decide)
    · rcases List.mem_append.mp h with h | h
      · exact tagOk_no_nl ht h
      · exact hin h

theorem canonLines_no_nl (k tg : String) (p : CanonPayload) (hk : keyOk k = true)
    (ht : tagOk tg = true) (hwf : canonWf p) :
    ∀ l ∈ canonLines k tg p, '\n' ∉ l := by
  cases p with
  | scal s =>
    intro l hl
    simp only [canonLines, List.mem_cons, List.not_mem_nil, or_false] at hl
    rcases hl with hl | hl
    · subst hl
      refine canonLine0_no_nl k tg _ hk ht ?_
      intro hm
      simp only [List.mem_cons] at hm
      rcases hm with hm | hm
      · exact absurd hm (by decide)
      · exact not_contains_not_mem hwf.2 hm
    · subst hl
      exact List.not_mem_nil _
  | seqP items =>
    intro l hl
    rcases List.mem_cons.mp hl with hl0 | hl1
    · subst hl0
      exact canonLine0_no_nl k tg [] hk ht (List.not_mem_nil _)
    rcases List.mem_append.mp hl1 with hm | he
    · obtain ⟨it, hit, heq⟩ := List.mem_map.mp hm
      subst heq
      intro hm2
      simp only [List.mem_cons] at hm2
      rcases hm2 with hm2 | hm2 | hm2
      · exact absurd hm2 (by decide)
      · exact absurd hm2 (by decide)
      · exact plainValueOk_no_nl (itemOk_plain (hwf.2 it hit)) hm2
    · have hle : l = [] := by simpa using he
      subst hle
      exact List.not_mem_nil _
  | mapP prs =>
    intro l hl
    rcases List.mem_cons.mp hl with hl0 | hl1
    · subst hl0
      exact canonLine0_no_nl k tg [] hk ht (List.not_mem_nil _)
    rcases List.mem_append.mp hl1 with hm | he
    · obtain ⟨pr, hpr, heq⟩ := List.mem_map.mp hm
      subst heq
      intro hm2
      rcases List.mem_cons.mp hm2 with h | hm2
      · exact absurd h (by decide)
      rcases List.mem_cons.mp hm2 with h | hm2
      · exact absurd h (by decide)
      rcases List.mem_append.mp hm2 with h | hm2
      · exact keyOk_no_nl (hwf.2.2 pr hpr).1 h
      rcases List.mem_cons.mp hm2 with h | hm2
      · exact absurd h (by decide)
      rcases List.mem_cons.mp hm2 with h | hm2
      · exact absurd h (by decide)
      exact plainValueOk_no_nl (itemOk_plain (hwf.2.2 pr hpr).2) hm2
    · have hle : l = [] := by simpa using he
      subst hle
      exact List.not_mem_nil _

theorem canonLines_ne (k tg : String) (p : CanonPayload) :
    canonLines k tg p ≠ [] := by
  cases p <;> simp [canonLines]

theorem loadYaml_canon (fuel : Nat) (k : String) (td : TagDef) (p : CanonPayload)
    (hk : keyOk k = true) (ht : tagOk td.tag = true)
    (hfind : findTag ("!" ++ td.tag) = some td)
    (hsh : shapeAdmits td.type p = true) (hwf : canonWf p) :
    loadYaml (fuel + 4) (canonText k td.tag p) = .ok (canonVal k td p) := by
  unfold loadYaml canonText
  rw [data_mk]
  rw [show splitLines (joinLines (canonLines k td.tag p)) = canonLines k td.tag p from
    splitLines_joinLines _ (canonLines_ne k td.tag p) (canonLines_no_nl k td.tag p hk ht hwf)]
  cases p with
  | scal s =>
    rw [parseDoc_scal k td.tag s hk ht hwf.1]
    show constructObject (fuel + 4)
      (.ymap mapTag [(plainNode k, .yscalar ("!" ++ td.tag) s none)]) = _
    exact constructObject_root (fuel + 2) k hk _ _
      (constructTagged_scal (fuel + 2) td.tag s none td hfind hsh)
  | seqP items =>
    cases items with
    | nil => exact absurd rfl hwf.1
    | cons it0 irest =>
      rw [parseDoc_seq k td.tag it0 irest hk ht hwf.2]
      show constructObject (fuel + 4)
        (.ymap mapTag [(plainNode k,
          .yseq ("!" ++ td.tag) ((it0 :: irest).map plainNode))]) = _
      exact constructObject_root (fuel + 2) k hk _ _
        (constructTagged_seq (fuel + 1) td.tag (it0 :: irest) td hfind hsh hwf.2)
  | mapP prs =>
    cases prs with
    | nil => exact absurd rfl hwf.1
    | cons pr0 prest =>
      rw [parseDoc_map k td.tag pr0 prest hk ht hwf.2.2]
      show constructObject (fuel + 4)
        (.ymap mapTag [(plainNode k,
          .ymap ("!" ++ td.tag)
            ((pr0 :: prest).map (fun pr => (plainNode pr.1, plainNode pr.2))))]) = _
      exact constructObject_root (fuel + 2) k hk _ _
        (constructTagged_map (fuel + 1) td.tag (pr0 :: prest) td hfind hsh
          hwf.2.2 hwf.2.1)

theorem cfnChars_bounded : ∀ (n : Nat) (cs : List Char), cs.length ≤ n →
    (cfnTail1 cs = true →
      ∀ c ∈ cs, (c.isAlphanum || c = '_' || c = '-' || c = ':' || c = '\n') = true) ∧
    (cfnSegN cs = true →
      ∀ c ∈ cs, (c.isAlphanum || c = '_' || c = '-' || c = ':' || c = '\n') = true) ∧
    (cfnTailN cs = true →
      ∀ c ∈ cs, (c.isAlphanum || c = '_' || c = '-' || c = ':' || c = '\n') = true) := by
  intro n
  induction n with
  | zero =>
    intro cs hlen
    have hnil : cs = [] := List.eq_nil_of_length_eq_zero (Nat.le_zero.mp hlen)
    subst hnil
    refine ⟨?_, ?_, ?_⟩ <;> intro h c hc <;> exact absurd hc (List.not_mem_nil c)
  | succ n ih =>
    intro cs hlen
    refine ⟨?_, ?_, ?_⟩
    · intro h c hc
      rw [cfnTail1.eq_def] at h
      split at h
      · exact absurd hc (List.not_mem_nil c)
      · simp only [List.mem_singleton] at hc
        subst hc
        rfl
      · rename_i rest
        rcases List.mem_cons.mp hc with rfl | hc
        · rfl
        rcases List.mem_cons.mp hc with rfl | hc
        · rfl
        have hlr : rest.length ≤ n := by
          simp only [List.length_cons] at hlen
          omega
        exact (ih rest hlr).2.1 h c hc
      · rename_i c0 rest hne1 hne2
        simp only [Bool.and_eq_true] at h
        rcases List.mem_cons.mp hc with rfl | hc
        · simp only [Bool.or_eq_true] at h ⊢
          tauto
        have hlr : rest.length ≤ n := by
          simp only [List.length_cons] at hlen
          omega
        exact (ih rest hlr).1 h.2 c hc
    · intro h c hc
      rw [cfnSegN.eq_def] at h
      split at h
      · rename_i c0 rest
        simp only [Bool.and_eq_true] at h
        rcases List.mem_cons.mp hc with rfl | hc
        · simp [Char.isAlphanum, h.1]
        have hlr : rest.length ≤ n := by
          simp only [List.length_cons] at hlen
          omega
        exact (ih rest hlr).2.2 h.2 c hc
      · exact Bool.noConfusion h
    · intro h c hc
      rw [cfnTailN.eq_def] at h
      split at h
      · exact absurd hc (List.not_mem_nil c)
      · simp only [List.mem_singleton] at hc
        subst hc
        rfl
      · rename_i rest
        rcases List.mem_cons.mp hc with rfl | hc
        · rfl
        rcases List.mem_cons.mp hc with rfl | hc
        · rfl
        have hlr : rest.length ≤ n := by
          simp only [List.length_cons] at hlen
          omega
        exact (ih rest hlr).2.1 h c hc
      · rename_i c0 rest hne1 hne2
        simp only [Bool.and_eq_true] at h
        rcases List.mem_cons.mp hc with rfl | hc
        · simp only [Bool.or_eq_true] at h ⊢
          tauto
        have hlr : rest.length ≤ n := by
          simp only [List.length_cons] at hlen
          omega
        exact (ih rest hlr).2.2 h.2 c hc

theorem cfnPattern_squotable (s : String) (hp : cfnPattern s = true)
    (hnl : ¬ s.data.contains '\n' = true) : squotable s = true := by
  unfold squotable
  rw [List.all_eq_true]
  intro c hc
  have hcn : c ≠ '\n' := fun he => (not_contains_not_mem hnl) (he ▸ hc)
  have hgood : (c.isAlphanum || c = '_' || c = '-' || c = ':' || c = '\n') = true := by
    unfold cfnPattern at hp
    cases hd : s.data with
    | nil => rw [hd] at hp; exact Bool.noConfusion hp
    | cons c0 rest =>
      rw [hd] at hp hc
      simp only [Bool.and_eq_true] at hp
      rcases List.mem_cons.mp hc with rfl | hc2
      · simp [Char.isAlphanum, hp.1]
      · exact (cfnChars_bounded rest.length rest (Nat.le_refl _)).1 hp.2 c hc2
  simp only [Bool.or_eq_true, decide_eq_true_eq] at hgood
  rcases hgood with (((ha | h) | h) | h) | h
  · simp [alphanum_ne c ha '\n' (by decide), alphanum_ne c ha '\'' (by decide),
      alphanum_ne c ha ' ' (by decide)]
  · subst h; decide
  · subst h; decide
  · subst h; decide
  · exact absurd h hcn

theorem squotable_no_quote {s : String} (h : squotable s = true) : '\'' ∉ s.data :=
  all_not_mem h (by decide)

theorem squotable_no_nl {s : String} (h : squotable s = true) : '\n' ∉ s.data :=
  all_not_mem h (by decide)

theorem unquoteSingle_append : ∀ (l : List Char), '\'' ∉ l →
    unquoteSingle (l ++ ['\'']) = some l
  | [], _ => rfl
  | c :: rest, h => by
    have hc : c ≠ '\'' := fun he => h (by rw [he]; exact List.mem_cons_self _ _)
    have ih := unquoteSingle_append rest (fun hm => h (List.mem_cons_of_mem _ hm))
    rw [List.cons_append, unquoteSingle.eq_def]
    split
    · rename_i heq
      exact List.noConfusion heq
    · rename_i heq
      rw [List.cons.injEq] at heq
      exact absurd heq.1 hc
    · rename_i c2 rest2 heq
      rw [List.cons.injEq] at heq
      rw [← heq.1, ← heq.2]
      rw [if_neg hc, ih]
      rfl

theorem parseInlineNode_tagged_quoted (tg s : String) (ht : tagOk tg = true)
    (hq : '\'' ∉ s.data) :
    parseInlineNode ('!' :: (tg.data ++ ' ' :: '\'' :: (s.data ++ ['\'']))) =
      some (.yscalar ("!" ++ tg) s (some "'")) := by
  rw [parseInlineNode_bang]
  unfold parseTaggedInline
  rw [splitAtChar_append ' ' tg.data _ (tagOk_no_space ht), Option.some_bind]
  show (if ('\'' : Char) = '\'' then
      (unquoteSingle (s.data ++ ['\''])).map
        (fun inner => YNode.yscalar (String.mk ('!' :: tg.data)) (String.mk inner) (some "'"))
    else some (.yscalar (String.mk ('!' :: tg.data))
      (String.mk ('\'' :: (s.data ++ ['\'']))) none)) = _
  rw [if_pos rfl, unquoteSingle_append s.data hq]
  rw [Option.map_some']
  rw [bang_mk, mk_data]

theorem parseDoc_scal_quoted (k tg s : String) (hk : keyOk k = true)
    (ht : tagOk tg = true) (hq : '\'' ∉ s.data) :
    parseDocLines (canonOutLines k tg (.scal s)) =
      some (.ymap mapTag [(plainNode k, .yscalar ("!" ++ tg) s (some "'"))]) := by
  show parseDocLines
    (canonLine0 k tg (' ' :: '\'' :: (s.data ++ ['\''])) :: ([] ++ [[]])) = _
  rw [parseDocLines_shape]
  unfold canonLine0
  rw [splitAtChar_append ':' k.data _ (keyOk_no_colon hk), Option.some_bind,
    parseAfterKey_space, parseDocBody_nil,
    parseInlineNode_tagged_quoted tg s ht hq, Option.some_bind, mk_data]
  rfl

theorem loadYaml_canonOut (fuel : Nat) (k : String) (td : TagDef) (p : CanonPayload)
    (hk : keyOk k = true) (ht : tagOk td.tag = true)
    (hfind : findTag ("!" ++ td.tag) = some td)
    (hsh : shapeAdmits td.type p = true) (hwf : canonWf p) :
    loadYaml (fuel + 4) (canonTextOut k td.tag p) = .ok (canonVal k td p) := by
  cases p with
  | scal s =>
    have hsq : squotable s = true := cfnPattern_squotable s hwf.1 hwf.2
    have hnl : ∀ l ∈ canonOutLines k td.tag (.scal s), '\n' ∉ l := by
      intro l hl
      simp only [canonOutLines, List.mem_cons, List.not_mem_nil, or_false] at hl
      rcases hl with hl | hl
      · subst hl
        refine canonLine0_no_nl k td.tag _ hk ht ?_
        intro hm
        rcases List.mem_cons.mp hm with hme | hm
        · exact absurd hme (by decide)
        rcases List.mem_cons.mp hm with hme | hm
        · exact absurd hme (by decide)
        rcases List.mem_append.mp hm with hme | hme
        · exact squotable_no_nl hsq hme
        · rcases List.mem_cons.mp hme with hme2 | hme2
          · exact absurd hme2 (by decide)
          · exact absurd hme2 (List.not_mem_nil _)
      · subst hl
        exact List.not_mem_nil _
    unfold loadYaml canonTextOut
    rw [data_mk]
    rw [show splitLines (joinLines (canonOutLines k td.tag (.scal s))) =
        canonOutLines k td.tag (.scal s) from
      splitLines_joinLines _ (by simp [canonOutLines]) hnl]
    rw [parseDoc_scal_quoted k td.tag s hk ht (squotable_no_quote hsq)]
    show constructObject (fuel + 4)
      (.ymap mapTag [(plainNode k, .yscalar ("!" ++ td.tag) s (some "'"))]) = _
    exact constructObject_root (fuel + 2) k hk _ _
      (constructTagged_scal (fuel + 2) td.tag s (some "'") td hfind hsh)
  | seqP items =>
    exact loadYaml_canon fuel k td (.seqP items) hk ht hfind hsh hwf
  | mapP prs =>
    exact loadYaml_canon fuel k td (.mapP prs) hk ht hfind hsh hwf

theorem dumpYaml_canon (fuel : Nat) (k : String) (td : TagDef) (p : CanonPayload)
    (hk : keyOk k = true) (hlit : tagLiteral td = "!" ++ td.tag)
    (hwf : canonWf p) :
    dumpYaml (fuel + 3) (canonVal k td p) = some (canonTextOut k td.tag p) := by
  cases p with
  | scal s =>
    show dumpYaml (fuel + 3) (.pdict [(k, .cfn td.name (tagLiteral td) (.pstr s))]) = _
    rw [hlit]
    exact dumpYaml_canon_scal (fuel + 1) k td.tag td.name s hk hwf.1
      (cfnPattern_squotable s hwf.1 hwf.2)
  | seqP items =>
    cases items with
    | nil => exact absurd rfl hwf.1
    | cons it0 irest =>
      show dumpYaml (fuel + 3)
        (.pdict [(k, .cfn td.name (tagLiteral td)
          (.plist ((it0 :: irest).map PyVal.pstr)))]) = _
      rw [hlit]
      exact dumpYaml_canon_seq fuel k td.tag td.name it0 irest hk hwf.2
  | mapP prs =>
    cases prs with
    | nil => exact absurd rfl hwf.1
    | cons pr0 prest =>
      show dumpYaml (fuel + 3) (.pdict [(k, .cfn td.name (tagLiteral td)
        (.pdict ((pr0 :: prest).map (fun pr => (pr.1, PyVal.pstr pr.2)))))]) = _
      rw [hlit]
      exact dumpYaml_canon_map fuel k td.tag td.name pr0 prest hk hwf.2.2

theorem registeredTags_facts :
    ∀ td ∈ registeredTags, tagOk td.tag = true ∧
      findTag ("!" ++ td.tag) = some td ∧ tagLiteral td = "!" ++ td.tag := by
  decide

/-- C1 (counterexample): the round-trip law fails on the claim's own
example.  `load_yaml` of `"Def: !Ref MyBucket\n"` yields the expected
tagged tree, but `dump_yaml` of that tree single-quotes the non-implicit
tagged scalar — PyYAML's `choose_scalar_style` treats the representer's
requested `style=""` as unset and requires `implicit[0]` for plain style —
so the dump is `"Def: !Ref 'MyBucket'\n"`, not the input text. -/
theorem C1_roundtrip_counterexample :
    loadYaml 9 "Def: !Ref MyBucket\n" =
      .ok (.pdict [("Def", .cfn "Ref" "!Ref" (.pstr "MyBucket"))]) ∧
    dumpYaml 9 (.pdict [("Def", .cfn "Ref" "!Ref" (.pstr "MyBucket"))]) =
      some "Def: !Ref 'MyBucket'\n" ∧
    ("Def: !Ref 'MyBucket'\n" : String) ≠ "Def: !Ref MyBucket\n" :=
  ⟨by decide, by decide, by decide⟩

/-- C1 (amended): for every registered CloudFormation tag, loading a
canonical short-form document yields the expected tagged-value tree, and
dumping that tree with the default dump options reproduces the input text
exactly for block sequence and mapping payloads; for a scalar payload the
dump is the single-quoted variant `Key: !Tag 'value'` (the emitter treats
the representer's forced `style=""` as unset and quotes the non-implicit
tagged scalar), and that dumped text reloads to the identical tree, so
`dump ∘ load` is idempotent on the canonical fragment. -/
theorem C1_canonical_roundtrip_amended (fuel : Nat) (k : String) (td : TagDef)
    (p : CanonPayload) (htd : td ∈ registeredTags) (hk : keyOk k = true)
    (hsh : shapeAdmits td.type p = true) (hwf : canonWf p) :
    loadYaml (fuel + 4) (canonText k td.tag p) = .ok (canonVal k td p) ∧
    dumpYaml (fuel + 4) (canonVal k td p) = some (canonTextOut k td.tag p) ∧
    loadYaml (fuel + 4) (canonTextOut k td.tag p) = .ok (canonVal k td p) ∧
    (∀ items, p = .seqP items → canonTextOut k td.tag p = canonText k td.tag p) ∧
    (∀ prs, p = .mapP prs → canonTextOut k td.tag p = canonText k td.tag p) := by
  obtain ⟨ht, hfind, hlit⟩ := registeredTags_facts td htd
  refine ⟨loadYaml_canon fuel k td p hk ht hfind hsh hwf,
    dumpYaml_canon (fuel + 1) k td p hk hlit hwf,
    loadYaml_canonOut fuel k td p hk ht hfind hsh hwf, ?_, ?_⟩
  · intro items hp
    subst hp
    rfl
  · intro prs hp
    subst hp
    rfl

theorem C1_canonical_roundtrip_amended_witness :
    (refDef ∈ registeredTags ∧ keyOk "Def" = true ∧
      shapeAdmits refDef.type (.scal "MyBucket") = true ∧
      canonWf (.scal "MyBucket")) ∧
    (loadYaml 4 (canonText "Def" refDef.tag (.scal "MyBucket")) =
        .ok (canonVal "Def" refDef (.scal "MyBucket")) ∧
      dumpYaml 4 (canonVal "Def" refDef (.scal "MyBucket")) =
        some (canonTextOut "Def" refDef.tag (.scal "MyBucket")) ∧
      loadYaml 4 (canonTextOut "Def" refDef.tag (.scal "MyBucket")) =
        .ok (canonVal "Def" refDef (.scal "MyBucket")) ∧
      (∀ items, (.scal "MyBucket" : CanonPayload) = .seqP items →
        canonTextOut "Def" refDef.tag (.scal "MyBucket") =
          canonText "Def" refDef.tag (.scal "MyBucket")) ∧
      (∀ prs, (.scal "MyBucket" : CanonPayload) = .mapP prs →
        canonTextOut "Def" refDef.tag (.scal "MyBucket") =
          canonText "Def" refDef.tag (.scal "MyBucket"))) :=
  ⟨⟨by decide, by decide, by decide, ⟨by decide, by decide⟩⟩,
    C1_canonical_roundtrip_amended 0 "Def" refDef (.scal "MyBucket") (by decide)
      (by decide) (by decide) ⟨by decide, by decide⟩⟩

/-- C2: `to_json` applies the one-directional `Ref`/`GetAtt`
canonicalization: a `Fn::GetAtt` with a string payload becomes
`\x7b"Fn::GetAtt": <payload split on ".">\x7d`, and a `Ref` whose string
payload contains a `.` becomes the same `Fn::GetAtt` sequence form; the
representer never applies this rewrite, so the loaded tree of
`A: !Ref Foo.Bar` dumps with the `Ref` tag and payload intact (the
non-identifier payload is single-quoted by the emitter) and reloads to
the identical tree. -/
theorem C2_to_json_canonicalization (fuel : Nat) (tg s : String)
    (hdot : s.data.contains '.' = true) :
    (toJsonConvert (fuel + 1) (.cfn "Fn::GetAtt" tg (.pstr s)) =
      .ok (.pdict [("Fn::GetAtt", .plist ((pySplitChar '.' s).map PyVal.pstr))])) ∧
    (toJsonConvert (fuel + 1) (.cfn "Ref" tg (.pstr s)) =
      .ok (.pdict [("Fn::GetAtt", .plist ((pySplitChar '.' s).map PyVal.pstr))])) ∧
    (loadYaml 9 "A: !Ref Foo.Bar\n" =
      .ok (.pdict [("A", .cfn "Ref" "!Ref" (.pstr "Foo.Bar"))])) ∧
    (dumpYaml 9 (.pdict [("A", .cfn "Ref" "!Ref" (.pstr "Foo.Bar"))]) =
      some "A: !Ref 'Foo.Bar'\n") ∧
    (loadYaml 9 "A: !Ref 'Foo.Bar'\n" =
      .ok (.pdict [("A", .cfn "Ref" "!Ref" (.pstr "Foo.Bar"))])) := by
  refine ⟨rfl, ?_, by decide, by decide, by decide⟩
  have h : toJsonConvert (fuel + 1) (.cfn "Ref" tg (.pstr s)) =
      (if s.data.contains '.' = true
       then Except.ok (.pdict
         [("Fn::GetAtt", .plist ((pySplitChar '.' s).map PyVal.pstr))])
       else Except.ok (.pdict [("Ref", .pstr s)])) := rfl
  rw [h, if_pos hdot]

theorem C2_to_json_canonicalization_witness :
    ("Foo.Bar" : String).data.contains '.' = true ∧
    ((toJsonConvert 1 (.cfn "Fn::GetAtt" "!GetAtt" (.pstr "Foo.Bar")) =
      .ok (.pdict [("Fn::GetAtt",
        .plist ((pySplitChar '.' "Foo.Bar").map PyVal.pstr))])) ∧
    (toJsonConvert 1 (.cfn "Ref" "!Ref" (.pstr "Foo.Bar")) =
      .ok (.pdict [("Fn::GetAtt",
        .plist ((pySplitChar '.' "Foo.Bar").map PyVal.pstr))])) ∧
    (loadYaml 9 "A: !Ref Foo.Bar\n" =
      .ok (.pdict [("A", .cfn "Ref" "!Ref" (.pstr "Foo.Bar"))])) ∧
    (dumpYaml 9 (.pdict [("A", .cfn "Ref" "!Ref" (.pstr "Foo.Bar"))]) =
      some "A: !Ref 'Foo.Bar'\n") ∧
    (loadYaml 9 "A: !Ref 'Foo.Bar'\n" =
      .ok (.pdict [("A", .cfn "Ref" "!Ref" (.pstr "Foo.Bar"))]))) :=
  ⟨by decide, C2_to_json_canonicalization 0 "!Ref" "Foo.Bar" (by decide)⟩

/-- C4: For a tag descriptor of shape `SEQUENCE_OR_SCALAR`,
`CloudFormationObject.construct` attempts sequence extraction first and
falls back to scalar extraction only when the sequence attempt raises:
a sequence node yields the constructed list (never a stringified form), a
scalar node yields the scalar text, and a mapping node fails with the
scalar extractor's shape error; concretely both `!Sub "Hi ${Name}"` and
`!Sub ["Hi ${Name}", \x7bName: World\x7d]` construct successfully while a
mapping payload for `!Sub` is an error. -/
theorem C4_sequence_or_scalar_order (td : TagDef) (t : String)
    (recur : YNode → Except String PyVal)
    (hfind : findTag t = some td) (hty : td.type = .sequenceOrScalarK) :
    (∀ (u : String) (items : List YNode) (vs : List PyVal),
        items.mapM recur = .ok vs →
        cfnConstructDispatch recur (.yseq u items) t =
          .ok (.cfn td.name (tagLiteral td) (.plist vs))) ∧
    (∀ (u v : String) (st : Option String),
        cfnConstructDispatch recur (.yscalar u v st) t =
          .ok (.cfn td.name (tagLiteral td) (.pstr v))) ∧
    (∀ (u : String) (prs : List (YNode × YNode)),
        cfnConstructDispatch recur (.ymap u prs) t =
          .error "expected a scalar node") ∧
    (constructObject 3 (.yscalar "!Sub" "Hi ${Name}" none) =
      .ok (.cfn "Fn::Sub" "!Sub" (.pstr "Hi ${Name}"))) ∧
    (constructObject 3 (.yseq "!Sub"
        [.yscalar strTag "Hi ${Name}" none,
         .ymap mapTag [(.yscalar strTag "Name" none, .yscalar strTag "World" none)]]) =
      .ok (.cfn "Fn::Sub" "!Sub"
        (.plist [.pstr "Hi ${Name}", .pdict [("Name", .pstr "World")]]))) ∧
    (constructObject 3 (.ymap "!Sub"
        [(.yscalar strTag "Name" none, .yscalar strTag "World" none)]) =
      .error "expected a scalar node") := by
  obtain ⟨nm, tgd, ty⟩ := td
  subst hty
  refine ⟨?_, ?_, ?_, by decide, by decide, by decide⟩
  · intro u items vs hvs
    unfold cfnConstructDispatch
    rw [hfind]
    rw [show constructSequenceWith recur (.yseq u items) = Except.ok vs from hvs]
  · intro u v st
    unfold cfnConstructDispatch
    rw [hfind]
    rfl
  · intro u prs
    unfold cfnConstructDispatch
    rw [hfind]
    rfl

theorem C4_sequence_or_scalar_order_witness :
    (findTag "!Sub" = some ⟨"Fn::Sub", "Sub", .sequenceOrScalarK⟩) ∧
    ((⟨"Fn::Sub", "Sub", .sequenceOrScalarK⟩ : TagDef).type = .sequenceOrScalarK) ∧
    (cfnConstructDispatch (constructObject 2) (.yscalar strTag "Hi" none) "!Sub" =
      .ok (.cfn "Fn::Sub"
        (tagLiteral ⟨"Fn::Sub", "Sub", .sequenceOrScalarK⟩) (.pstr "Hi"))) :=
  ⟨by decide, rfl,
    (C4_sequence_or_scalar_order ⟨"Fn::Sub", "Sub", .sequenceOrScalarK⟩ "!Sub"
      (constructObject 2) (by decide) rfl).2.1 strTag "Hi" none⟩

/-- C5: Include path resolution of `construct_cfntools_include_file`: an
absolute path scalar is used as-is; a relative path with a truthy loader
name (the including document's path) is joined to that document's
directory; with a falsy loader name it is made absolute against the
current working directory; concretely a document at `/a/b/template.yaml`
including `../c/data.yaml` designates `/a/c/data.yaml`. -/
theorem C5_include_path_resolution :
    (∀ cwd ln p, pisabs p = true → resolveIncludePath cwd ln p = p) ∧
    (∀ cwd ln p, pisabs p = false → ln ≠ "" →
      resolveIncludePath cwd ln p = pjoin (pdirname ln) p) ∧
    (∀ cwd p, pisabs p = false →
      resolveIncludePath cwd "" p = pabspath cwd p) ∧
    (resolveIncludePath "/cwd" "/a/b/template.yaml" "../c/data.yaml" =
      "/a/b/../c/data.yaml") ∧
    (osPathOf "/cwd" (resolveIncludePath "/cwd" "/a/b/template.yaml" "../c/data.yaml") =
      "/a/c/data.yaml") := by
  refine ⟨?_, ?_, ?_, by decide, by decide⟩
  · intro cwd ln p hp
    unfold resolveIncludePath
    rw [hp]
    rfl
  · intro cwd ln p hp hln
    unfold resolveIncludePath
    rw [hp]
    show (if ln ≠ "" then pjoin (pdirname ln) p else pabspath cwd p) = _
    rw [if_pos hln]
  · intro cwd p hp
    unfold resolveIncludePath
    rw [hp]
    rfl

theorem C5_include_path_resolution_witness :
    (pisabs "/etc/x.yaml" = true ∧
      resolveIncludePath "/cwd" "/a/t.yaml" "/etc/x.yaml" = "/etc/x.yaml") ∧
    (pisabs "sub/f.yaml" = false ∧ ("/a/t.yaml" : String) ≠ "" ∧
      resolveIncludePath "/cwd" "/a/t.yaml" "sub/f.yaml" =
        pjoin (pdirname "/a/t.yaml") "sub/f.yaml") ∧
    (pisabs "f.yaml" = false ∧
      resolveIncludePath "/cwd" "" "f.yaml" = pabspath "/cwd" "f.yaml") :=
  ⟨⟨by decide, C5_include_path_resolution.1 "/cwd" "/a/t.yaml" "/etc/x.yaml" (by decide)⟩,
   ⟨by decide, by decide,
     C5_include_path_resolution.2.1 "/cwd" "/a/t.yaml" "sub/f.yaml" (by decide) (by decide)⟩,
   ⟨by decide, C5_include_path_resolution.2.2.1 "/cwd" "f.yaml" (by decide)⟩⟩

/-- C6: Stringify output formatting of `construct_cfntools_to_string`: a
string first argument passes through unchanged, except that `OneLine`
replaces embedded newlines with spaces; an integer converts to its
canonical textual form; in JSON mode a mapping renders multi-line with
2-space indentation unless `OneLine`, which compacts the separators with
no surrounding whitespace; YAML mode renders block style with the trailing
newline trimmed — so `!CFNToolsToString [\x7b"k": "v"\x7d]` yields
`"\x7b\n  \"k\": \"v\"\n\x7d"`, with `OneLine: true` it yields
`"\x7b\"k\":\"v\"\x7d"`, and with `ConvertTo: YAMLString` it yields
`"k: v"`. -/
theorem C6_stringify_formatting (fuel : Nat) (s : String) (n : Int) :
    (constructCfnToolsToString fuel [.pstr s] = .ok s) ∧
    (constructCfnToolsToString fuel
        [.pstr s, .pdict [("OneLine", .pbool true)]] =
      .ok (replaceNlSpace s)) ∧
    (constructCfnToolsToString fuel [.pint n] = .ok (toString n)) ∧
    (constructCfnToolsToString 9 [.pdict [("k", .pstr "v")]] =
      .ok "\x7b\n  \"k\": \"v\"\n\x7d") ∧
    (constructCfnToolsToString 9
        [.pdict [("k", .pstr "v")], .pdict [("OneLine", .pbool true)]] =
      .ok "\x7b\"k\":\"v\"\x7d") ∧
    (constructCfnToolsToString 9
        [.pdict [("k", .pstr "v")], .pdict [("ConvertTo", .pstr "YAMLString")]] =
      .ok "k: v") :=
  ⟨rfl, rfl, rfl, by decide, by decide, by decide⟩

/-- C7 (counterexample): `inject` never checks for an already-registered
tag literal — appending a second descriptor with the tag literal `!Ref`
succeeds (no `DuplicateTagError`), and the later registration silently
overwrites the earlier constructor for that literal while keeping the
registry size unchanged. -/
theorem C7_duplicate_registration_succeeds :
    ((injectConstructors (registeredTags ++ [⟨"Other", "Ref", .scalarK⟩])).map
        (fun m => ((m.find? (fun kv => kv.1 = "!Ref")).map Prod.snd, m.length))) =
      .ok (some ⟨"Other", "Ref", .scalarK⟩, 18) := by
  decide

/-- C7 (amended): registration tolerates duplicate tag literals by
overwriting (`inject` raises only the `AttributeError` of an empty
constructor-name suffix, never a duplicate-tag error); the registry as
shipped nevertheless has pairwise distinct tag literals, and injecting it
registers all 18 constructors. -/
theorem C7_registry_distinct_literals :
    List.Pairwise (fun a b => tagLiteral a ≠ tagLiteral b) registeredTags ∧
    ((injectConstructors registeredTags).map (fun m => m.length) = .ok 18) := by
  constructor
  · decide
  · decide

/-- C8: `CloudFormationObject.represent` emits a string payload as a
tagged scalar whose plain (unquoted) style is forced (`style=""`) exactly
when the payload matches the identifier pattern
`^[a-zA-Z][a-zA-Z0-9_\-]*(::[a-zA-Z][a-zA-Z0-9]*)*$`, and leaves the style
to the emitter (`style=None`) otherwise, in which case the emitter writes
the tagged scalar single-quoted (shown here on the quotable fragment). -/
theorem C8_plain_style_iff_pattern (fuel : Nat) (nm t s tg : String) :
    (representData (fuel + 1) (.cfn nm t (.pstr s)) =
      some (.yscalar t s (if cfnPattern s then some "" else none))) ∧
    (cfnPattern s = false → squotable s = true →
      emitScalarInline ("!" ++ tg) s none =
        some (('!' :: tg.data) ++ ' ' :: ('\'' :: s.data ++ ['\'']))) := by
  constructor
  · show (if cfnPattern s then some (YNode.yscalar t s (some ""))
      else some (.yscalar t s none)) = _
    cases h : cfnPattern s <;> simp [h]
  · intro hp hsq
    have hplain : (decide (resolveScalar s = "!" ++ tg) && plainValueOk s) = false := by
      rw [decide_eq_false (resolveScalar_ne_bang s tg)]
      rfl
    simp [emitScalarInline, hplain, hsq, prepTag_bang,
      bang_ne_of_head_t tg strTag rfl, resolveScalar_ne_bang s tg]

theorem C8_plain_style_iff_pattern_witness :
    (cfnPattern "Foo.Bar" = false ∧ squotable "Foo.Bar" = true) ∧
    (representData 1 (.cfn "Ref" "!Ref" (.pstr "Foo.Bar")) =
      some (.yscalar "!Ref" "Foo.Bar"
        (if cfnPattern "Foo.Bar" then some "" else none))) ∧
    (emitScalarInline ("!" ++ "Ref") "Foo.Bar" none =
      some (('!' :: ("Ref" : String).data) ++
        ' ' :: ('\'' :: ("Foo.Bar" : String).data ++ ['\'']))) :=
  ⟨⟨by decide, by decide⟩,
    (C8_plain_style_iff_pattern 0 "Ref" "!Ref" "Foo.Bar" "Ref").1,
    (C8_plain_style_iff_pattern 0 "Ref" "!Ref" "Foo.Bar" "Ref").2
      (by decide) (by decide)⟩

/-- C9: When the first stringify element is neither a string nor a
mapping nor a sequence, `construct_cfntools_to_string` falls back to
Python `str()`: booleans render capitalized (`"True"`/`"False"`, not
JSON's `"true"`), `None` renders `"None"`, integers render decimally, and
the `ConvertTo` option does not change this. -/
theorem C9_str_fallback_textual_form (fuel : Nat) (n : Int) :
    (constructCfnToolsToString fuel [.pbool true] = .ok "True") ∧
    (constructCfnToolsToString fuel [.pbool false] = .ok "False") ∧
    (constructCfnToolsToString fuel [.pnone] = .ok "None") ∧
    (constructCfnToolsToString fuel [.pint n] = .ok (toString n)) ∧
    (constructCfnToolsToString fuel
        [.pbool true, .pdict [("ConvertTo", .pstr "YAMLString")]] = .ok "True") ∧
    (constructCfnToolsToString fuel
        [.pbool true, .pdict [("ConvertTo", .pstr "JSONString")]] = .ok "True") ∧
    (constructCfnToolsToString fuel
        [.pnone, .pdict [("ConvertTo", .pstr "YAMLString")]] = .ok "None") ∧
    (constructCfnToolsToString fuel
        [.pbool false, .pdict [("ConvertTo", .pstr "YAMLString")]] = .ok "False") :=
  ⟨rfl, rfl, rfl, rfl, rfl, rfl, rfl, rfl⟩

/-- C10: With `ConvertTo: YAMLString` and a mapping or sequence first
element, the `OneLine` option has no effect on
`construct_cfntools_to_string`: the result equals the invocation without
`OneLine` (newline collapsing applies only to string first arguments and
separator compaction only to JSON mode), and on `\x7b"k": "v"\x7d` the
output stays the block rendering `"k: v"` even with `OneLine: true`. -/
theorem C10_yaml_oneline_noop (fuel : Nat) :
    (∀ xs : List (String × PyVal),
      constructCfnToolsToString fuel [.pdict xs,
          .pdict [("ConvertTo", .pstr "YAMLString"), ("OneLine", .pbool true)]] =
        constructCfnToolsToString fuel [.pdict xs,
          .pdict [("ConvertTo", .pstr "YAMLString")]]) ∧
    (∀ xs : List PyVal,
      constructCfnToolsToString fuel [.plist xs,
          .pdict [("ConvertTo", .pstr "YAMLString"), ("OneLine", .pbool true)]] =
        constructCfnToolsToString fuel [.plist xs,
          .pdict [("ConvertTo", .pstr "YAMLString")]]) ∧
    (constructCfnToolsToString 9 [.pdict [("k", .pstr "v")],
        .pdict [("ConvertTo", .pstr "YAMLString"), ("OneLine", .pbool true)]] =
      .ok "k: v") :=
  ⟨fun _ => rfl, fun _ => rfl, by decide⟩

/-- C3 (counterexample): a nested include inside an included `.yaml` file
does not resolve against the included file's directory.  The top document
`/a/b/top.yaml` includes `mid.yaml` (resolved correctly against `/a/b`),
and `/a/b/mid.yaml` includes the relative path `data.txt`; although
`/a/b/data.txt` exists (content `right`), the nested load — whose fresh
string-stream loader is named `"<unicode string>"`, not the included
file's path — resolves `data.txt` against the working directory and reads
`/cwd/data.txt` (content `wrong`). -/
theorem C3_nested_include_origin_counterexample :
    (loadYamlFileProc 9
        ⟨[("/a/b/top.yaml", "K: !CFNToolsIncludeFile mid.yaml\n"),
          ("/a/b/mid.yaml", "Y: !CFNToolsIncludeFile data.txt\n"),
          ("/cwd/data.txt", "wrong"),
          ("/a/b/data.txt", "right")]⟩ "/cwd" "/a/b/top.yaml" =
      .ok (.pdict [("K", .pdict [("Y", .pstr "wrong")])])) ∧
    (SimFS.read
        ⟨[("/a/b/top.yaml", "K: !CFNToolsIncludeFile mid.yaml\n"),
          ("/a/b/mid.yaml", "Y: !CFNToolsIncludeFile data.txt\n"),
          ("/cwd/data.txt", "wrong"),
          ("/a/b/data.txt", "right")]⟩ "/cwd" "/a/b/data.txt" = some "right") := by
  constructor
  · decide
  · decide

/-- C3 (amended): the nested load of an included `.yaml`/`.yml` file uses
a fresh string-stream loader whose `name` is the constant
`"<unicode string>"`, so path resolution inside the included file is the
identity (`dirname("<unicode string>") = ""`) and relative nested include
paths resolve against the current working directory, not the included
file's directory; nested CloudFormation/processing tags in the included
content are still fully re-resolved. -/
theorem C3_nested_include_cwd_resolution :
    (∀ cwd p, resolveIncludePath cwd "<unicode string>" p = p) ∧
    (loadYamlFileProc 9
        ⟨[("/a/b/top.yaml", "K: !CFNToolsIncludeFile mid.yaml\n"),
          ("/a/b/mid.yaml", "Y: !Ref Foo\n")]⟩ "/cwd" "/a/b/top.yaml" =
      .ok (.pdict [("K", .pdict [("Y", .cfn "Ref" "!Ref" (.pstr "Foo"))])])) ∧
    (loadYamlFileProc 9
        ⟨[("/top.yaml", "K: !CFNToolsIncludeFile inc.yaml\n"),
          ("/inc.yaml", "Y: !CFNToolsIncludeFile note.txt\n"),
          ("/cwd/note.txt", "cwdfile")]⟩ "/cwd" "/top.yaml" =
      .ok (.pdict [("K", .pdict [("Y", .pstr "cwdfile")])])) := by
  refine ⟨?_, by decide, by decide⟩
  intro cwd p
  cases h : pisabs p <;>
    simp [resolveIncludePath, pjoin, h, show pdirname "<unicode string>" = "" from rfl]
